import Mathlib

/-!
# OptimPack, Yorick interface (`yorick/opky.c`)

A shallow embedding of the Yorick plug-in of OptimPack and the properties of
its argument checking, dimension handling, bound construction and attribute
access.

Conventions of the embedding.

* A C `long` is an `Int`; the one place where the source multiplies longs
  (`number *= dim` in `get_dims`) is reduced with `wrap_long` (64-bit two's
  complement).
* A `long dims[Y_DIMSIZE]` array is the list of the entries that have been
  written, `[rank, len_1, ..., len_rank]`; reading entry `i` is `getD i 0`.
* `y_error` does not return: every function that can reach it returns an
  `Except Err _`, together with the state left behind where there is one.
* The Yorick interpreter (`yapi.h`) and the OptimPack library
  (`optimpack-private.h`) are not part of `opky.c`; the former is modelled by the
  observations `opky.c` makes of a stack item, the latter is a parameter
  (`opk_library`) and every call made to it is recorded in a trace.
* Indices of the global symbol table stand in one-to-one correspondence with
  names, and `Y_opk_init` stores in each `*_index` the index of its name; an
  index is therefore represented by the name itself.
-/

namespace Opky

/-! ## Yorick API -/

def Y_CHAR : Int := 0
def Y_SHORT : Int := 1
def Y_INT : Int := 2
def Y_LONG : Int := 3
def Y_FLOAT : Int := 4
def Y_DOUBLE : Int := 5
def Y_COMPLEX : Int := 6
def Y_STRING : Int := 7
def Y_POINTER : Int := 8
def Y_STRUCT : Int := 9
def Y_RANGE : Int := 10
def Y_VOID : Int := 12
def Y_FUNCTION : Int := 13
def Y_BUILTIN : Int := 14
def Y_STRUCTDEF : Int := 15
def Y_STREAM : Int := 16
def Y_OPAQUE : Int := 17
def Y_DIMSIZE : Int := 11

/-- Two's complement reduction of an integer to a 64-bit C `long`. -/
def wrap_long (z : Int) : Int := (z + 2 ^ 63) % 2 ^ 64 - 2 ^ 63

/-- Reduction of an integer to a 32-bit C `int`. -/
def wrap_int (z : Int) : Int := (z + 2 ^ 31) % 2 ^ 32 - 2 ^ 31

/-- Reduction of an integer to a 32-bit C `unsigned int`. -/
def wrap_uint (z : Int) : Int := z % 2 ^ 32

/-- How a call ends when it does not return normally. -/
inductive Err where
  /-- `y_error(msg)` called by `opky.c`. -/
  | y_error (msg : String)
  /-- error raised inside the named Yorick API function. -/
  | yapi (fn : String)
  deriving DecidableEq, Repr

inductive IntKind where
  | char | short | int | long
  deriving DecidableEq, Repr

inductive RealKind where
  | float | double
  deriving DecidableEq, Repr

inductive OtherKind where
  | complex | string | pointer | struct
  deriving DecidableEq, Repr

inductive NonArrayKind where
  | range | function | builtin | structdef | stream | userobj
  deriving DecidableEq, Repr

/-- An item of the Yorick stack, as `opky.c` can observe it: nil, an array of
an integer type, an array of a real type (elements in `R`), an array of
another type, or something that is not an array.  For an array, `dims` lists
the axis lengths (the rank is their number) and `vals` the elements. -/
inductive YArg (R : Type) where
  | void
  | ints (k : IntKind) (dims : List Int) (vals : List Int)
  | reals (k : RealKind) (dims : List Int) (vals : List R)
  | other (k : OtherKind) (dims : List Int)
  | non_array (k : NonArrayKind)
  deriving DecidableEq, Repr

/-- Element conversions performed by the Yorick accessors. -/
structure yconv (R : Type) where
  /-- `long` to `double`. -/
  l2d : Int → R
  /-- `long` to `float`. -/
  l2f : Int → R
  /-- `double` to `float`. -/
  d2f : R → R
  /-- truth value of a real scalar. -/
  nonzero : R → Bool

def IntKind.typeid : IntKind → Int
  | .char => Y_CHAR
  | .short => Y_SHORT
  | .int => Y_INT
  | .long => Y_LONG

def RealKind.typeid : RealKind → Int
  | .float => Y_FLOAT
  | .double => Y_DOUBLE

def OtherKind.typeid : OtherKind → Int
  | .complex => Y_COMPLEX
  | .string => Y_STRING
  | .pointer => Y_POINTER
  | .struct => Y_STRUCT

def NonArrayKind.typeid : NonArrayKind → Int
  | .range => Y_RANGE
  | .function => Y_FUNCTION
  | .builtin => Y_BUILTIN
  | .structdef => Y_STRUCTDEF
  | .stream => Y_STREAM
  | .userobj => Y_OPAQUE

def yarg_typeid {R : Type} : YArg R → Int
  | .void => Y_VOID
  | .ints k _ _ => k.typeid
  | .reals k _ _ => k.typeid
  | .other k _ => k.typeid
  | .non_array k => k.typeid

/-- Rank of an array, `-1` for what is not an array. -/
def yarg_rank {R : Type} : YArg R → Int
  | .ints _ dims _ => dims.length
  | .reals _ dims _ => dims.length
  | .other _ dims => dims.length
  | _ => -1

def yarg_nil {R : Type} : YArg R → Bool
  | .void => true
  | _ => false

/-- The dimension list `[rank, len_1, ..., len_rank]` of an array. -/
def descriptor (dims : List Int) : List Int := (dims.length : Int) :: dims

/-- Number of elements announced by a list of axis lengths. -/
def count_of (dims : List Int) : Int := dims.prod

/-- A stack item is well formed when it is not an array, or its axis lengths
are positive, at most `Y_DIMSIZE - 1` in number, and their product is the
number of its elements. -/
def YArg.wf {R : Type} : YArg R → Prop
  | .ints _ dims vals =>
      (∀ d ∈ dims, 1 ≤ d) ∧ (dims.length : Int) < Y_DIMSIZE ∧ (vals.length : Int) = count_of dims
  | .reals _ dims vals =>
      (∀ d ∈ dims, 1 ≤ d) ∧ (dims.length : Int) < Y_DIMSIZE ∧ (vals.length : Int) = count_of dims
  | .other _ dims => (∀ d ∈ dims, 1 ≤ d) ∧ (dims.length : Int) < Y_DIMSIZE
  | _ => True

/-- Scalar of an integer type, as a `long`. -/
def ygets_l {R : Type} : YArg R → Except Err Int
  | .ints _ [] (v :: _) => .ok v
  | _ => .error (.yapi "ygets_l")

/-- Array of an integer type, as `long`s: elements, their number, dimension list. -/
def ygeta_l {R : Type} : YArg R → Except Err (List Int × Int × List Int)
  | .ints _ dims vals => .ok (vals, vals.length, descriptor dims)
  | _ => .error (.yapi "ygeta_l")

/-- Numeric scalar, as a `double`. -/
def ygets_d {R : Type} (C : yconv R) : YArg R → Except Err R
  | .ints _ [] (v :: _) => .ok (C.l2d v)
  | .reals _ [] (v :: _) => .ok v
  | _ => .error (.yapi "ygets_d")

/-- Numeric array, as `double`s: elements, their number, dimension list. -/
def ygeta_d {R : Type} (C : yconv R) : YArg R → Except Err (List R × Int × List Int)
  | .ints _ dims vals => .ok (vals.map C.l2d, vals.length, descriptor dims)
  | .reals _ dims vals => .ok (vals, vals.length, descriptor dims)
  | _ => .error (.yapi "ygeta_d")

/-- Numeric array, as `float`s: elements, their number, dimension list. -/
def ygeta_f {R : Type} (C : yconv R) : YArg R → Except Err (List R × Int × List Int)
  | .ints _ dims vals => .ok (vals.map C.l2f, vals.length, descriptor dims)
  | .reals .float dims vals => .ok (vals, vals.length, descriptor dims)
  | .reals .double dims vals => .ok (vals.map C.d2f, vals.length, descriptor dims)
  | _ => .error (.yapi "ygeta_f")

/-- Truth value of a stack item: a non-zero numeric scalar. -/
def yarg_true {R : Type} (C : yconv R) : YArg R → Bool
  | .ints _ [] (v :: _) => v != 0
  | .reals _ [] (v :: _) => C.nonzero v
  | _ => false

/-! ## Dimension lists -/

/-- Iterations `i, i+1, ...` (`k` of them) of the loop of `same_dims`. -/
def same_dims_loop (adims bdims : List Int) : Nat → Nat → Bool
  | _, 0 => true
  | i, k + 1 =>
    if bdims.getD i 0 ≠ adims.getD i 0 then false
    else same_dims_loop adims bdims (i + 1) k

/-- `same_dims`: entries `0 .. adims[0]` of the two arrays are compared. -/
def same_dims (adims bdims : List Int) : Bool :=
  let ndims := adims.getD 0 0
  same_dims_loop adims bdims 0 (ndims + 1).toNat

/-- Iterations `i, i+1, ...` (`k` of them) of the loop of `copy_dims`; `dst`
holds the entries written so far. -/
def copy_dims_loop (src : List Int) : Nat → Nat → List Int → List Int
  | _, 0, dst => dst
  | i, k + 1, dst => copy_dims_loop src (i + 1) k (dst ++ [src.getD i 0])

/-- `copy_dims`: entries `0 .. src[0]` of `src` are written to `dst`. -/
def copy_dims (src : List Int) : List Int :=
  let ndims := src.getD 0 0
  copy_dims_loop src 0 (ndims + 1).toNat []

/-- Iterations `i, i+1, ...` (`k` of them) of the loop of `get_dims` over a
vector `vals`; `dims` holds the entries written so far, `number` the running
product. -/
def get_dims_loop (vals : List Int) :
    Nat → Nat → List Int → Int → Except Err (List Int × Int)
  | _, 0, dims, number => .ok (dims, number)
  | i, k + 1, dims, number =>
    let dim := vals.getD i 0
    if dim < 1 then .error (.y_error "invalid dimension length")
    else get_dims_loop vals (i + 1) k (dims ++ [dim]) (wrap_long (number * dim))

/-- `get_dims`: the dimension list written to `dims` and the returned number
of elements. -/
def get_dims {R : Type} (iarg : YArg R) : Except Err (List Int × Int) :=
  let type := yarg_typeid iarg
  if type = Y_VOID then .ok ([0], 1)
  else if type > Y_LONG then .error (.y_error "invalid type for dimension list")
  else
    let rank := yarg_rank iarg
    if rank = 0 then
      match ygets_l iarg with
      | .error e => .error e
      | .ok dim =>
        if dim < 1 then .error (.y_error "invalid dimension length")
        else .ok ([1, dim], dim)
    else
      let fallthrough : Except Err (List Int × Int) :=
        .error (.y_error "invalid dimension list")
      if rank = 1 then
        match ygeta_l iarg with
        | .error e => .error e
        | .ok (vals, ntot, _) =>
          if ntot > Y_DIMSIZE then .error (.y_error "too many dimensions")
          else
            let ndims := ntot - 1
            if vals.getD 0 0 = ndims then
              get_dims_loop vals 1 ndims.toNat [ndims] 1
            else fallthrough
      else fallthrough

/-! ## OptimPack library -/

/-- Modelled from the spec: the task of the OptimPack library (`opk_task_t`,
declared outside `opky.c`), "an enumerated value {Error,
ComputeObjectiveAndGradient, NewPoint, FinalPoint, Warning}". -/
inductive opk_task where
  | error | compute_fg | new_x | final_x | warning
  deriving DecidableEq, Repr

/-- Calls to the OptimPack library that create or change library objects. -/
inductive opk_call where
  | new_vector_space (single : Bool) (n : Int)
  | wrap_vector
  | rewrap_vector
  | vcreate
  | new_bound (vector : Bool)
  | new_nlcg_optimizer (flags : Int)
  | new_vmlmb_optimizer (mem : Int) (flags : Int)
  | start_nlcg
  | iterate_nlcg
  | start_vmlmb
  | iterate_vmlmb
  deriving DecidableEq, Repr

/-- Modelled from the spec: the vector space of the OptimPack library
(`opk_vspace_t`), which "owns {total element count, element precision
(single|double)}". -/
structure opk_vspace where
  size : Int
  single : Bool
  deriving DecidableEq, Repr

/-- Modelled from the spec: the bound of the OptimPack library
(`opk_bound_t`), "variant {Scalar(value), VectorValued(owned Vector, populated
by copy from caller array)}"; the vector is the list of its elements. -/
inductive opk_bound (R : Type) where
  | scalar (value : R)
  | vector (data : List R)
  deriving DecidableEq, Repr

/-- The part of the OptimPack library that `opky.c` calls and that lies
outside it: whether a call that can fail succeeds after a given history of
calls, and the optimizers themselves (state `S`). -/
structure opk_library (S R : Type) where
  succeeds : List opk_call → opk_call → Bool
  /-- content of storage that has not been written. -/
  dummy : R
  /-- `opk_get_reason(opk_guess_status(errno))` after a failed creation. -/
  errno_reason : String
  get_reason : Int → Option String
  /-- numerical value of a task. -/
  task_code : opk_task → Int
  OPK_NLCG_DEFAULT : Int
  new_nlcg_optimizer : opk_vspace → Int → S
  new_vmlmb_optimizer :
    opk_vspace → Int → Int → Option (opk_bound R) → Option (opk_bound R) → S
  start_nlcg : S → List R → S × List R × opk_task
  iterate_nlcg : S → List R → R → List R → S × List R × opk_task
  get_nlcg_task : S → opk_task
  get_nlcg_status : S → Int
  get_nlcg_flags : S → Int
  get_nlcg_iterations : S → Int
  get_nlcg_evaluations : S → Int
  get_nlcg_restarts : S → Int
  get_nlcg_description : S → Int × String
  start_vmlmb : S → List R → S × List R × opk_task
  iterate_vmlmb : S → List R → R → List R → S × List R × opk_task
  get_vmlmb_task : S → opk_task
  get_vmlmb_status : S → Int
  get_vmlmb_flags : S → Int
  get_vmlmb_iterations : S → Int
  get_vmlmb_evaluations : S → Int
  get_vmlmb_restarts : S → Int
  get_vmlmb_method_name : S → Option String
  get_vmlmb_description : S → Int × String

def OPK_SUCCESS : Int := 0

/-- Modelled from the spec: `opk_new_simple_float_vector_space` and
`opk_new_simple_double_vector_space` of the library, "`create_space(total_count,
precision) -> VectorSpace` fails with InvalidArgument if `total_count < 1`". -/
def opk_new_simple_vector_space {S R : Type} (L : opk_library S R)
    (tr : List opk_call) (single : Bool) (n : Int) :
    List opk_call × Option opk_vspace :=
  (tr ++ [.new_vector_space single n],
    if n < 1 then none
    else if L.succeeds tr (.new_vector_space single n) then
      some { size := n, single := single }
    else none)

/-- Modelled from the spec: `opk_vcreate` of the library, a new vector of the
vector space, its storage not yet written. -/
def opk_vcreate {S R : Type} (L : opk_library S R) (tr : List opk_call)
    (vspace : opk_vspace) : List opk_call × Option (List R) :=
  (tr ++ [.vcreate],
    if L.succeeds tr .vcreate then some (List.replicate vspace.size.toNat L.dummy)
    else none)

/-- Modelled from the spec: `opk_new_bound` of the library, the bound made of
the given scalar or vector. -/
def opk_new_bound {S R : Type} (L : opk_library S R) (tr : List opk_call)
    (b : opk_bound R) : List opk_call × Option (opk_bound R) :=
  let c : opk_call := .new_bound (match b with | .scalar _ => false | .vector _ => true)
  (tr ++ [c], if L.succeeds tr c then some b else none)

/-- `memcpy(dst, src, n * sizeof(element))`. -/
def memcpy {R : Type} (dst src : List R) (n : Nat) : List R :=
  src.take n ++ dst.drop n

/-! ## Optimizer object -/

/-- The two static operation tables an instance can point to. -/
inductive ops_table where
  /-- `&nlcg_ops`. -/
  | nlcg
  /-- `&vmlmb_ops`. -/
  | vmlmb
  deriving DecidableEq, Repr

/-- `struct _yopt_instance`; a wrapped vector is the list of the elements of
the buffer it is bound to. -/
structure yopt_instance (S R : Type) where
  dims : List Int
  ops : ops_table
  optimizer : S
  vspace : opk_vspace
  x : List R
  gx : List R
  xl : Option (opk_bound R)
  xu : Option (opk_bound R)
  single : Bool

/-- An instance together with the calls made to the library so far. -/
structure World (S R : Type) where
  opt : yopt_instance S R
  trace : List opk_call

/-- `struct _yopt_operations`. -/
structure yopt_operations (S R : Type) where
  start : World S R → World S R × opk_task
  iterate : World S R → R → World S R × opk_task
  get_task : yopt_instance S R → opk_task
  get_status : yopt_instance S R → Int
  get_flags : yopt_instance S R → Int
  get_iterations : yopt_instance S R → Int
  get_evaluations : yopt_instance S R → Int
  get_restarts : yopt_instance S R → Int
  get_projections : yopt_instance S R → Int
  get_name : yopt_instance S R → Option String
  get_description : yopt_instance S R → Except Err String

/-- What a built-in function or `yopt_extract` pushes on the stack. -/
inductive Pushed where
  | long (value : Int)
  | int (value : Int)
  | q (value : Option String)
  | l (dims : List Int) (vals : List Int)
  | nil
  deriving DecidableEq, Repr

/-! ### Non-linear conjugate gradient -/

def nlcg_start {S R : Type} (L : opk_library S R) (w : World S R) :
    World S R × opk_task :=
  let r := L.start_nlcg w.opt.optimizer w.opt.x
  ({ opt := { w.opt with optimizer := r.1, x := r.2.1 },
     trace := w.trace ++ [.start_nlcg] }, r.2.2)

def nlcg_iterate {S R : Type} (L : opk_library S R) (w : World S R) (fx : R) :
    World S R × opk_task :=
  let r := L.iterate_nlcg w.opt.optimizer w.opt.x fx w.opt.gx
  ({ opt := { w.opt with optimizer := r.1, x := r.2.1 },
     trace := w.trace ++ [.iterate_nlcg] }, r.2.2)

def nlcg_get_task {S R : Type} (L : opk_library S R) (opt : yopt_instance S R) :
    opk_task :=
  L.get_nlcg_task opt.optimizer

def nlcg_get_status {S R : Type} (L : opk_library S R) (opt : yopt_instance S R) :
    Int :=
  L.get_nlcg_status opt.optimizer

def nlcg_get_flags {S R : Type} (L : opk_library S R) (opt : yopt_instance S R) :
    Int :=
  L.get_nlcg_flags opt.optimizer

def nlcg_get_iterations {S R : Type} (L : opk_library S R)
    (opt : yopt_instance S R) : Int :=
  L.get_nlcg_iterations opt.optimizer

def nlcg_get_evaluations {S R : Type} (L : opk_library S R)
    (opt : yopt_instance S R) : Int :=
  L.get_nlcg_evaluations opt.optimizer

def nlcg_get_restarts {S R : Type} (L : opk_library S R)
    (opt : yopt_instance S R) : Int :=
  L.get_nlcg_restarts opt.optimizer

def nlcg_get_projections {S R : Type} (_opt : yopt_instance S R) : Int :=
  0

def nlcg_get_name {S R : Type} (_opt : yopt_instance S R) : Option String :=
  some "NLCG"

def nlcg_get_description {S R : Type} (L : opk_library S R)
    (opt : yopt_instance S R) : Except Err String :=
  let r := L.get_nlcg_description opt.optimizer
  if r.1 ≠ OPK_SUCCESS then .error (.y_error ((L.get_reason r.1).getD ""))
  else .ok r.2

def nlcg_ops {S R : Type} (L : opk_library S R) : yopt_operations S R where
  start := nlcg_start L
  iterate := nlcg_iterate L
  get_task := nlcg_get_task L
  get_status := nlcg_get_status L
  get_flags := nlcg_get_flags L
  get_iterations := nlcg_get_iterations L
  get_evaluations := nlcg_get_evaluations L
  get_restarts := nlcg_get_restarts L
  get_projections := nlcg_get_projections
  get_name := nlcg_get_name
  get_description := nlcg_get_description L

/-! ### Limited memory variable metric method with bounds -/

def vmlmb_start {S R : Type} (L : opk_library S R) (w : World S R) :
    World S R × opk_task :=
  let r := L.start_vmlmb w.opt.optimizer w.opt.x
  ({ opt := { w.opt with optimizer := r.1, x := r.2.1 },
     trace := w.trace ++ [.start_vmlmb] }, r.2.2)

def vmlmb_iterate {S R : Type} (L : opk_library S R) (w : World S R) (fx : R) :
    World S R × opk_task :=
  let r := L.iterate_vmlmb w.opt.optimizer w.opt.x fx w.opt.gx
  ({ opt := { w.opt with optimizer := r.1, x := r.2.1 },
     trace := w.trace ++ [.iterate_vmlmb] }, r.2.2)

def vmlmb_get_task {S R : Type} (L : opk_library S R) (opt : yopt_instance S R) :
    opk_task :=
  L.get_vmlmb_task opt.optimizer

def vmlmb_get_status {S R : Type} (L : opk_library S R) (opt : yopt_instance S R) :
    Int :=
  L.get_vmlmb_status opt.optimizer

def vmlmb_get_flags {S R : Type} (L : opk_library S R) (opt : yopt_instance S R) :
    Int :=
  L.get_vmlmb_flags opt.optimizer

def vmlmb_get_iterations {S R : Type} (L : opk_library S R)
    (opt : yopt_instance S R) : Int :=
  L.get_vmlmb_iterations opt.optimizer

def vmlmb_get_evaluations {S R : Type} (L : opk_library S R)
    (opt : yopt_instance S R) : Int :=
  L.get_vmlmb_evaluations opt.optimizer

def vmlmb_get_restarts {S R : Type} (L : opk_library S R)
    (opt : yopt_instance S R) : Int :=
  L.get_vmlmb_restarts opt.optimizer

def vmlmb_get_projections {S R : Type} (L : opk_library S R)
    (opt : yopt_instance S R) : Int :=
  L.get_vmlmb_evaluations opt.optimizer

def vmlmb_get_name {S R : Type} (L : opk_library S R) (opt : yopt_instance S R) :
    Option String :=
  L.get_vmlmb_method_name opt.optimizer

def vmlmb_get_description {S R : Type} (L : opk_library S R)
    (opt : yopt_instance S R) : Except Err String :=
  let r := L.get_vmlmb_description opt.optimizer
  if r.1 ≠ OPK_SUCCESS then .error (.y_error ((L.get_reason r.1).getD ""))
  else .ok r.2

def vmlmb_ops {S R : Type} (L : opk_library S R) : yopt_operations S R where
  start := vmlmb_start L
  iterate := vmlmb_iterate L
  get_task := vmlmb_get_task L
  get_status := vmlmb_get_status L
  get_flags := vmlmb_get_flags L
  get_iterations := vmlmb_get_iterations L
  get_evaluations := vmlmb_get_evaluations L
  get_restarts := vmlmb_get_restarts L
  get_projections := vmlmb_get_projections L
  get_name := vmlmb_get_name L
  get_description := vmlmb_get_description L

/-- The table `opt->ops` points to. -/
def ops_table.deref {S R : Type} (L : opk_library S R) :
    ops_table → yopt_operations S R
  | .nlcg => nlcg_ops L
  | .vmlmb => vmlmb_ops L

def START {S R : Type} (L : opk_library S R) (w : World S R) :
    World S R × opk_task :=
  (w.opt.ops.deref L).start w

def ITERATE {S R : Type} (L : opk_library S R) (w : World S R) (fx : R) :
    World S R × opk_task :=
  (w.opt.ops.deref L).iterate w fx

def GET_TASK {S R : Type} (L : opk_library S R) (opt : yopt_instance S R) :
    opk_task :=
  (opt.ops.deref L).get_task opt

def GET_FLAGS {S R : Type} (L : opk_library S R) (opt : yopt_instance S R) : Int :=
  (opt.ops.deref L).get_flags opt

def GET_STATUS {S R : Type} (L : opk_library S R) (opt : yopt_instance S R) : Int :=
  (opt.ops.deref L).get_status opt

def GET_ITERATIONS {S R : Type} (L : opk_library S R) (opt : yopt_instance S R) :
    Int :=
  (opt.ops.deref L).get_iterations opt

def GET_EVALUATIONS {S R : Type} (L : opk_library S R) (opt : yopt_instance S R) :
    Int :=
  (opt.ops.deref L).get_evaluations opt

def GET_RESTARTS {S R : Type} (L : opk_library S R) (opt : yopt_instance S R) :
    Int :=
  (opt.ops.deref L).get_restarts opt

def GET_PROJECTIONS {S R : Type} (L : opk_library S R) (opt : yopt_instance S R) :
    Int :=
  (opt.ops.deref L).get_projections opt

def GET_NAME {S R : Type} (L : opk_library S R) (opt : yopt_instance S R) :
    Option String :=
  (opt.ops.deref L).get_name opt

def GET_DESCRIPTION {S R : Type} (L : opk_library S R) (opt : yopt_instance S R) :
    Except Err String :=
  (opt.ops.deref L).get_description opt

/-! ## Keywords and members -/

def yget_global (name : String) : String := name

def description_index : String := yget_global "description"
def dims_index : String := yget_global "dims"
def evaluations_index : String := yget_global "evaluations"
def flags_index : String := yget_global "flags"
def iterations_index : String := yget_global "iterations"
def lower_index : String := yget_global "lower"
def mem_index : String := yget_global "mem"
def name_index : String := yget_global "name"
def projections_index : String := yget_global "projections"
def reason_index : String := yget_global "reason"
def restarts_index : String := yget_global "restarts"
def single_index : String := yget_global "single"
def size_index : String := yget_global "size"
def status_index : String := yget_global "status"
def task_index : String := yget_global "task"
def upper_index : String := yget_global "upper"

/-- `yopt_extract`: what reading member `member` of the instance pushes. -/
def yopt_extract {S R : Type} (L : opk_library S R) (opt : yopt_instance S R)
    (member : String) : Except Err Pushed :=
  let index := yget_global member
  if index = flags_index then .ok (.long (GET_FLAGS L opt))
  else if index = task_index then .ok (.int (L.task_code (GET_TASK L opt)))
  else if index = status_index then .ok (.int (GET_STATUS L opt))
  else if index = reason_index then .ok (.q (L.get_reason (GET_STATUS L opt)))
  else if index = description_index then
    match GET_DESCRIPTION L opt with
    | .error e => .error e
    | .ok d => .ok (.q (some d))
  else if index = name_index then .ok (.q (GET_NAME L opt))
  else if index = size_index then .ok (.long opt.vspace.size)
  else if index = dims_index then
    let ndims := opt.dims.getD 0 0
    let dims := [1, ndims + 1]
    .ok (.l dims (copy_dims opt.dims))
  else if index = iterations_index then .ok (.long (GET_ITERATIONS L opt))
  else if index = evaluations_index then .ok (.long (GET_EVALUATIONS L opt))
  else if index = restarts_index then .ok (.long (GET_RESTARTS L opt))
  else if index = projections_index then .ok (.long (GET_PROJECTIONS L opt))
  else if index = single_index then .ok (.int (if opt.single then 1 else 0))
  else .ok .nil

/-! ## Private functions -/

/-- Modelled from the spec: `opk_wrap_simple_float_vector` and
`opk_wrap_simple_double_vector` of the library, "`wrap(space, buffer, count,
precision) -> WrappedVector` ... binds without copying": a vector bound to the
given buffer. -/
def opk_wrap_simple_vector {S R : Type} (L : opk_library S R) (tr : List opk_call)
    (_vspace : opk_vspace) (data : List R) : List opk_call × Option (List R) :=
  (tr ++ [.wrap_vector], if L.succeeds tr .wrap_vector then some data else none)

/-- `create_wrapper(vspace, single)`: a vector wrapped around a local zero. -/
def create_wrapper {S R : Type} (C : yconv R) (L : opk_library S R)
    (vspace : opk_vspace) (single : Bool) (tr : List opk_call) :
    List opk_call × Option (List R) :=
  if single then
    let dummy := C.l2f 0
    opk_wrap_simple_vector L tr vspace [dummy]
  else
    let dummy := C.l2d 0
    opk_wrap_simple_vector L tr vspace [dummy]

/-- Which wrapped vector of the instance a call of `rewrap` is given. -/
inductive vect_sel where
  | x
  | gx
  deriving DecidableEq, Repr

/-- Modelled from the spec: `opk_rewrap_simple_float_vector` and
`opk_rewrap_simple_double_vector` of the library, which rebind the vector to
the buffer without copying; the flag tells whether the status is
`OPK_SUCCESS`. -/
def opk_rewrap_simple_vector {S R : Type} (L : opk_library S R) (w : World S R)
    (vect : vect_sel) (data : List R) : World S R × Bool :=
  if L.succeeds w.trace .rewrap_vector then
    ({ opt := (match vect with
              | .x => { w.opt with x := data }
              | .gx => { w.opt with gx := data }),
       trace := w.trace ++ [.rewrap_vector] }, true)
  else ({ w with trace := w.trace ++ [.rewrap_vector] }, false)

/-- `rewrap(iarg, opt, vect)`. -/
def rewrap {S R : Type} (C : yconv R) (L : opk_library S R) (iarg : YArg R)
    (w : World S R) (vect : vect_sel) : World S R × Except Err Unit :=
  if w.opt.single then
    match ygeta_f C iarg with
    | .error e => (w, .error e)
    | .ok (data, _, dims) =>
      if ¬ same_dims w.opt.dims dims then (w, .error (.y_error "bad dimensions"))
      else
        let r := opk_rewrap_simple_vector L w vect data
        if ¬ r.2 then (r.1, .error (.y_error "failed to wrap vector"))
        else (r.1, .ok ())
  else
    match ygeta_d C iarg with
    | .error e => (w, .error e)
    | .ok (data, _, dims) =>
      if ¬ same_dims w.opt.dims dims then (w, .error (.y_error "bad dimensions"))
      else
        let r := opk_rewrap_simple_vector L w vect data
        if ¬ r.2 then (r.1, .error (.y_error "failed to wrap vector"))
        else (r.1, .ok ())

/-- `get_bound(iarg, opt)`; of the instance it reads `opt->vspace`,
`opt->dims` and `opt->single`, which are given as `vspace`, `odims` and
`single`.  The storage of the vector is shared with the bound, so what
`memcpy` writes is what the bound holds. -/
def get_bound {S R : Type} (C : yconv R) (L : opk_library S R) (iarg : YArg R)
    (vspace : opk_vspace) (odims : List Int) (single : Bool) (tr : List opk_call) :
    List opk_call × Except Err (Option (opk_bound R)) :=
  let rank := yarg_rank iarg
  if rank = 0 then
    match ygets_d C iarg with
    | .error e => (tr, .error e)
    | .ok value =>
      let r := opk_new_bound L tr (.scalar value)
      (r.1, .ok r.2)
  else if rank > 0 then
    match (if single then ygeta_f C iarg else ygeta_d C iarg) with
    | .error e => (tr, .error e)
    | .ok (src, ntot, dims) =>
      if ¬ same_dims odims dims then (tr, .error (.y_error "bad bound dimensions"))
      else if ntot ≠ vspace.size then
        (tr, .error (.y_error "bad number of elements for the bound"))
      else
        match opk_vcreate L tr vspace with
        | (tr1, none) =>
          (tr1, .error (.y_error "failed to create a \"vector\" for the bound"))
        | (tr1, some vector) =>
          match opk_new_bound L tr1 (.vector vector) with
          | (tr2, none) => (tr2, .error (.y_error "failed to create the bound"))
          | (tr2, some _) =>
            (tr2, .ok (some (.vector (memcpy vector src ntot.toNat))))
  else if ¬ yarg_nil iarg then (tr, .error (.y_error "invalid bound"))
  else (tr, .ok none)

/-- `get_optional_uint(iarg, def)`. -/
def get_optional_uint {R : Type} (iarg : YArg R) (dflt : Int) : Except Err Int :=
  let type := yarg_typeid iarg
  if type = Y_VOID then .ok dflt
  else if type > Y_LONG ∨ yarg_rank iarg ≠ 0 then
    .error (.y_error "expecting nothing or an integer scalar")
  else
    match ygets_l iarg with
    | .error e => .error e
    | .ok v => .ok (wrap_uint v)

/-- `get_optional_long(iarg, def)`; `def` is a C `int`. -/
def get_optional_long {R : Type} (iarg : YArg R) (dflt : Int) : Except Err Int :=
  let dflt := wrap_int dflt
  let type := yarg_typeid iarg
  if type = Y_VOID then .ok dflt
  else if type > Y_LONG ∨ yarg_rank iarg ≠ 0 then
    .error (.y_error "expecting nothing or an integer scalar")
  else ygets_l iarg

/-! ## Built-in functions -/

/-- An argument of a call, in the order of the call: positional, or a keyword
(the index of its name) with its value. -/
inductive Item (R : Type) where
  | pos (v : YArg R)
  | key (index : String) (v : YArg R)
  deriving DecidableEq, Repr

/-- Local variables of `Y_opk_nlcg`. -/
structure nlcg_locals where
  n : Int
  dims : List Int
  single : Bool
  flags : Int
  deriving DecidableEq, Repr

/-- Body of the argument loop of `Y_opk_nlcg`, for one argument. -/
def Y_opk_nlcg_arg {R : Type} (C : yconv R) (it : Item R) (s : nlcg_locals) :
    Except Err nlcg_locals :=
  match it with
  | .pos v =>
    if s.n ≠ -1 then .error (.y_error "too many arguments")
    else
      match get_dims v with
      | .error e => .error e
      | .ok (dims, n) => .ok { s with n := n, dims := dims }
  | .key index v =>
    if index = single_index then .ok { s with single := yarg_true C v }
    else if index = flags_index then
      match get_optional_uint v s.flags with
      | .error e => .error e
      | .ok flags => .ok { s with flags := flags }
    else .error (.y_error "unknown keyword")

/-- The argument loop of `Y_opk_nlcg`, first argument first. -/
def Y_opk_nlcg_args {R : Type} (C : yconv R) :
    List (Item R) → nlcg_locals → Except Err nlcg_locals
  | [], s => .ok s
  | it :: rest, s =>
    match Y_opk_nlcg_arg C it s with
    | .error e => .error e
    | .ok s1 => Y_opk_nlcg_args C rest s1

/-- `Y_opk_nlcg`: the calls made to the library and the instance built. -/
def Y_opk_nlcg {S R : Type} (C : yconv R) (L : opk_library S R)
    (args : List (Item R)) (tr : List opk_call) :
    List opk_call × Except Err (yopt_instance S R) :=
  match Y_opk_nlcg_args C args
      { n := -1, dims := [], single := false, flags := L.OPK_NLCG_DEFAULT } with
  | .error e => (tr, .error e)
  | .ok s =>
    if s.n = -1 then (tr, .error (.y_error "not enough arguments"))
    else
      let odims := copy_dims s.dims
      match opk_new_simple_vector_space L tr s.single s.n with
      | (tr1, none) => (tr1, .error (.y_error "failed to create vector space"))
      | (tr1, some vspace) =>
        let rx := create_wrapper C L vspace s.single tr1
        let rgx := create_wrapper C L vspace s.single rx.1
        match rx.2, rgx.2 with
        | some x, some gx =>
          let tr4 := rgx.1 ++ [.new_nlcg_optimizer s.flags]
          if L.succeeds rgx.1 (.new_nlcg_optimizer s.flags) then
            (tr4, .ok
              { dims := odims, ops := .nlcg,
                optimizer := L.new_nlcg_optimizer vspace s.flags,
                vspace := vspace, x := x, gx := gx, xl := none, xu := none,
                single := s.single })
          else (tr4, .error (.y_error L.errno_reason))
        | _, _ => (rgx.1, .error (.y_error "failed to create working vectors"))

/-- Local variables of `Y_opk_vmlmb`; `lower` and `upper` are the stack items
the recorded positions refer to. -/
structure vmlmb_locals (R : Type) where
  n : Int
  mem : Int
  dims : List Int
  single : Bool
  lower : Option (YArg R)
  upper : Option (YArg R)
  flags : Int

/-- Body of the argument loop of `Y_opk_vmlmb`, for one argument. -/
def Y_opk_vmlmb_arg {R : Type} (C : yconv R) (it : Item R) (s : vmlmb_locals R) :
    Except Err (vmlmb_locals R) :=
  match it with
  | .pos v =>
    if s.n ≠ -1 then .error (.y_error "too many arguments")
    else
      match get_dims v with
      | .error e => .error e
      | .ok (dims, n) => .ok { s with n := n, dims := dims }
  | .key index v =>
    if index = mem_index then
      match get_optional_long v s.mem with
      | .error e => .error e
      | .ok mem =>
        if mem ≤ 0 then .error (.y_error "invalid value for MEM keyword")
        else .ok { s with mem := mem }
    else if index = flags_index then
      match get_optional_uint v s.flags with
      | .error e => .error e
      | .ok flags => .ok { s with flags := flags }
    else if index = single_index then .ok { s with single := yarg_true C v }
    else if index = lower_index then .ok { s with lower := some v }
    else if index = upper_index then .ok { s with upper := some v }
    else .error (.y_error "unknown keyword")

/-- The argument loop of `Y_opk_vmlmb`, first argument first. -/
def Y_opk_vmlmb_args {R : Type} (C : yconv R) :
    List (Item R) → vmlmb_locals R → Except Err (vmlmb_locals R)
  | [], s => .ok s
  | it :: rest, s =>
    match Y_opk_vmlmb_arg C it s with
    | .error e => .error e
    | .ok s1 => Y_opk_vmlmb_args C rest s1

/-- Values of the local variables of `Y_opk_vmlmb` before the loop. -/
def vmlmb_init (R : Type) : vmlmb_locals R :=
  { n := -1, mem := 5, dims := [], single := false, lower := none, upper := none,
    flags := 0 }

/-- `(lower >= 0 ? get_bound(lower + 1, opt) : NULL)`, and the same for
`upper`. -/
def optional_bound {S R : Type} (C : yconv R) (L : opk_library S R)
    (bound : Option (YArg R)) (vspace : opk_vspace) (odims : List Int) (single : Bool)
    (tr : List opk_call) : List opk_call × Except Err (Option (opk_bound R)) :=
  match bound with
  | some iarg => get_bound C L iarg vspace odims single tr
  | none => (tr, .ok none)

/-- `Y_opk_vmlmb`: the calls made to the library and the instance built. -/
def Y_opk_vmlmb {S R : Type} (C : yconv R) (L : opk_library S R)
    (args : List (Item R)) (tr : List opk_call) :
    List opk_call × Except Err (yopt_instance S R) :=
  match Y_opk_vmlmb_args C args (vmlmb_init R) with
  | .error e => (tr, .error e)
  | .ok s =>
    if s.n = -1 then (tr, .error (.y_error "not enough arguments"))
    else
      let odims := copy_dims s.dims
      match opk_new_simple_vector_space L tr s.single s.n with
      | (tr1, none) => (tr1, .error (.y_error "failed to create vector space"))
      | (tr1, some vspace) =>
        let rx := create_wrapper C L vspace s.single tr1
        let rgx := create_wrapper C L vspace s.single rx.1
        match rx.2, rgx.2 with
        | some x, some gx =>
          match optional_bound C L s.lower vspace odims s.single rgx.1 with
          | (tr2, .error e) => (tr2, .error e)
          | (tr2, .ok xl) =>
            match optional_bound C L s.upper vspace odims s.single tr2 with
            | (tr3, .error e) => (tr3, .error e)
            | (tr3, .ok xu) =>
              let tr4 := tr3 ++ [.new_vmlmb_optimizer s.mem s.flags]
              if L.succeeds tr3 (.new_vmlmb_optimizer s.mem s.flags) then
                (tr4, .ok
                  { dims := odims, ops := .vmlmb,
                    optimizer := L.new_vmlmb_optimizer vspace s.mem s.flags xl xu,
                    vspace := vspace, x := x, gx := gx, xl := xl, xu := xu,
                    single := s.single })
              else (tr4, .error (.y_error L.errno_reason))
        | _, _ => (rgx.1, .error (.y_error "failed to create working vectors"))

/-- `Y_opk_start`, called with the instance `w.opt` followed by `args`. -/
def Y_opk_start {S R : Type} (C : yconv R) (L : opk_library S R) (w : World S R)
    (args : List (YArg R)) : World S R × Except Err Pushed :=
  match args with
  | [x] =>
    match rewrap C L x w .x with
    | (w1, .error e) => (w1, .error e)
    | (w1, .ok _) =>
      let r := START L w1
      (r.1, .ok (.int (L.task_code r.2)))
  | _ => (w, .error (.y_error "expecting exactly 2 arguments"))

/-- `Y_opk_iterate`, called with the instance `w.opt` followed by `args`. -/
def Y_opk_iterate {S R : Type} (C : yconv R) (L : opk_library S R) (w : World S R)
    (args : List (YArg R)) : World S R × Except Err Pushed :=
  match args with
  | [x, fxarg, gx] =>
    match rewrap C L x w .x with
    | (w1, .error e) => (w1, .error e)
    | (w1, .ok _) =>
      match ygets_d C fxarg with
      | .error e => (w1, .error e)
      | .ok fx =>
        match rewrap C L gx w1 .gx with
        | (w2, .error e) => (w2, .error e)
        | (w2, .ok _) =>
          let r := ITERATE L w2 fx
          (r.1, .ok (.int (L.task_code r.2)))
  | _ => (w, .error (.y_error "expecting 4 arguments"))

/-! ## Concrete inputs -/

/-- Dimension list of a numeric array, the only kind of stack item
`ygeta_f` and `ygeta_d` return a buffer for. -/
def buffer_descriptor {R : Type} : YArg R → Option (List Int)
  | .ints _ dims _ => some (descriptor dims)
  | .reals _ dims _ => some (descriptor dims)
  | _ => none

/-- State of the optimizer of `demo_library`. -/
structure demo_state where
  task : opk_task
  evaluations : Int
  mem : Int
  deriving DecidableEq, Repr

/-- A library in which every call succeeds and an optimizer counts the calls
of its iterate operation; it serves to evaluate the embedding on concrete
inputs. -/
def demo_library : opk_library demo_state Int where
  succeeds := fun _ _ => true
  dummy := 0
  errno_reason := "insufficient memory"
  get_reason := fun _ => some "reason"
  task_code := fun t =>
    match t with
    | .error => -1
    | .compute_fg => 0
    | .new_x => 1
    | .final_x => 2
    | .warning => 3
  OPK_NLCG_DEFAULT := 0
  new_nlcg_optimizer := fun _ _ => { task := .error, evaluations := 0, mem := 0 }
  new_vmlmb_optimizer := fun _ mem _ _ _ => { task := .error, evaluations := 0, mem := mem }
  start_nlcg := fun s x => ({ s with task := .compute_fg, evaluations := 0 }, x, .compute_fg)
  iterate_nlcg := fun s x _ _ =>
    ({ s with task := .new_x, evaluations := s.evaluations + 1 }, x, .new_x)
  get_nlcg_task := fun s => s.task
  get_nlcg_status := fun _ => 0
  get_nlcg_flags := fun _ => 0
  get_nlcg_iterations := fun _ => 0
  get_nlcg_evaluations := fun s => s.evaluations
  get_nlcg_restarts := fun _ => 0
  get_nlcg_description := fun _ => (0, "nlcg")
  start_vmlmb := fun s x => ({ s with task := .compute_fg, evaluations := 0 }, x, .compute_fg)
  iterate_vmlmb := fun s x _ _ =>
    ({ s with task := .new_x, evaluations := s.evaluations + 1 }, x, .new_x)
  get_vmlmb_task := fun s => s.task
  get_vmlmb_status := fun _ => 0
  get_vmlmb_flags := fun _ => 0
  get_vmlmb_iterations := fun _ => 0
  get_vmlmb_evaluations := fun s => s.evaluations
  get_vmlmb_restarts := fun _ => 0
  get_vmlmb_method_name := fun _ => some "VMLMB"
  get_vmlmb_description := fun _ => (0, "vmlmb")

/-- Conversions of a host whose numbers are all integers. -/
def demo_conv : yconv Int where
  l2d := fun v => v
  l2f := fun v => v
  d2f := fun v => v
  nonzero := fun v => v != 0

/-- An instance of the given kind and dimension list in the given task, with
`evals` evaluations so far. -/
def demo_world (ops : ops_table) (dims : List Int) (size : Int) (task : opk_task)
    (evals : Int) : World demo_state Int where
  opt :=
    { dims := dims, ops := ops,
      optimizer := { task := task, evaluations := evals, mem := 5 },
      vspace := { size := size, single := false },
      x := [0], gx := [0], xl := none, xu := none, single := false }
  trace := []

/-- The library call by which an operation table starts its optimizer. -/
def start_call : ops_table → opk_call
  | .nlcg => .start_nlcg
  | .vmlmb => .start_vmlmb

/-- The library call by which an operation table iterates its optimizer. -/
def iterate_call : ops_table → opk_call
  | .nlcg => .iterate_nlcg
  | .vmlmb => .iterate_vmlmb

/-- A call is an optimizer call when it starts or iterates an optimizer. -/
def opk_call.is_optimizer_step : opk_call → Bool
  | .start_nlcg => true
  | .iterate_nlcg => true
  | .start_vmlmb => true
  | .iterate_vmlmb => true
  | _ => false

/-- What the getters of the operation table read of the optimizer: task,
status and the four counters. -/
def backend_view {S R : Type} (L : opk_library S R) (opt : yopt_instance S R) :
    opk_task × Int × Int × Int × Int × Int :=
  (GET_TASK L opt, GET_STATUS L opt, GET_ITERATIONS L opt, GET_EVALUATIONS L opt,
    GET_RESTARTS L opt, GET_PROJECTIONS L opt)

/-- A failed call left the optimizer alone: it raised an error, the
optimizer and the operation table are those of `w`, what the getters read is
unchanged, and none of the library calls it added to the trace starts or
iterates an optimizer. -/
def aborted_without_step {S R : Type} (L : opk_library S R) (w : World S R)
    (r : World S R × Except Err Pushed) : Prop :=
  (∃ e : Err, r.2 = .error e) ∧
  r.1.opt.optimizer = w.opt.optimizer ∧
  r.1.opt.ops = w.opt.ops ∧
  backend_view L r.1.opt = backend_view L w.opt ∧
  ∃ added : List opk_call,
    r.1.trace = w.trace ++ added ∧ ∀ c ∈ added, c.is_optimizer_step = false

/-- Number of elements of a numeric array. -/
def buffer_count {R : Type} : YArg R → Int
  | .ints _ _ vals => vals.length
  | .reals _ _ vals => vals.length
  | _ => 0

/-- The elements of a numeric array as the instance receives them: through
`ygeta_f` when it is in single precision, through `ygeta_d` otherwise. -/
def ygeta_elements {R : Type} (C : yconv R) (single : Bool) (iarg : YArg R) : List R :=
  match (if single then ygeta_f C iarg else ygeta_d C iarg) with
  | .ok (src, _, _) => src
  | .error _ => []

/-- A bound given as a numeric array of rank at least one whose dimension
list is not `odims` or whose number of elements is not `size`. -/
def bound_mismatch {R : Type} (iarg : YArg R) (odims : List Int) (size : Int) : Prop :=
  0 < yarg_rank iarg ∧
    ∃ B : List Int, buffer_descriptor iarg = some B ∧ (B ≠ odims ∨ buffer_count iarg ≠ size)

/-- The two errors by which `get_bound` rejects an array. -/
def is_bound_error (e : Err) : Prop :=
  e = .y_error "bad bound dimensions" ∨ e = .y_error "bad number of elements for the bound"

/-- The members for which `yopt_extract` has a branch. -/
def exposed_members : List String :=
  ["flags", "task", "status", "reason", "description", "name", "size", "dims",
    "iterations", "evaluations", "restarts", "projections", "single"]

/-- Values of the `mem` keyword in an argument list, in the order of the call. -/
def mem_keys {R : Type} : List (Item R) → List (YArg R)
  | [] => []
  | .pos _ :: rest => mem_keys rest
  | .key index v :: rest =>
    if index = mem_index then v :: mem_keys rest else mem_keys rest

/-- Values of the positional arguments of an argument list, in the order of
the call. -/
def pos_args {R : Type} : List (Item R) → List (YArg R)
  | [] => []
  | .pos v :: rest => v :: pos_args rest
  | .key _ _ :: rest => pos_args rest

/-- The instance `opt` was built, with trace `tr2`, by one of the two
constructors called with `args`. -/
def constructed {S R : Type} (C : yconv R) (L : opk_library S R) (args : List (Item R))
    (tr tr2 : List opk_call) (opt : yopt_instance S R) : Prop :=
  Y_opk_nlcg C L args tr = (tr2, .ok opt) ∨ Y_opk_vmlmb C L args tr = (tr2, .ok opt)

/-- The instance `demo_library` builds for `opk_nlcg` called with a dimension
argument whose dimension list is `dims` and whose count is `size`. -/
def demo_nlcg_instance (dims : List Int) (size : Int) : yopt_instance demo_state Int where
  dims := dims
  ops := .nlcg
  optimizer := { task := .error, evaluations := 0, mem := 0 }
  vspace := { size := size, single := false }
  x := [0]
  gx := [0]
  xl := none
  xu := none
  single := false

/-- The instance `demo_library` builds for `opk_vmlmb` called with a dimension
argument whose dimension list is `dims` and whose count is `size`, and no
keyword. -/
def demo_vmlmb_instance (dims : List Int) (size : Int) : yopt_instance demo_state Int where
  dims := dims
  ops := .vmlmb
  optimizer := { task := .error, evaluations := 0, mem := 5 }
  vspace := { size := size, single := false }
  x := [0]
  gx := [0]
  xl := none
  xu := none
  single := false

/-- The library `demo_library` out of memory for bounds: `opk_vcreate` and
`opk_new_bound` fail, every other call succeeds. -/
def demo_library_no_bound : opk_library demo_state Int :=
  { demo_library with
    succeeds := fun _ c =>
      match c with
      | .vcreate => false
      | .new_bound _ => false
      | _ => true }

/-! ## Properties -/

theorem same_dims_loop_iff (adims bdims : List Int) (k : Nat) :
    ∀ i : Nat, same_dims_loop adims bdims i k = true ↔
      ∀ j : Nat, i ≤ j → j < i + k → bdims.getD j 0 = adims.getD j 0 := by
  induction k with
  | zero =>
    intro i
    simp only [same_dims_loop, true_iff]
    intro j h1 h2
    omega
  | succ k ih =>
    intro i
    unfold same_dims_loop
    by_cases h : bdims.getD i 0 = adims.getD i 0
    · simp only [ne_eq, h, not_true_eq_false, if_false]
      rw [ih (i + 1)]
      constructor
      · intro hall j h1 h2
        rcases Nat.eq_or_lt_of_le h1 with h3 | h3
        · subst h3
          exact h
        · exact hall j h3 (by omega)
      · intro hall j h1 h2
        exact hall j (by omega) (by omega)
    · simp only [ne_eq, h, not_false_eq_true, if_true, Bool.false_eq_true, false_iff]
      intro hall
      exact h (hall i (le_refl i) (by omega))

theorem same_dims_descriptor (ds bs : List Int) :
    same_dims (descriptor ds) (descriptor bs) = true ↔ descriptor bs = descriptor ds := by
  constructor
  · intro h
    unfold same_dims at h
    rw [same_dims_loop_iff] at h
    have hk : ((descriptor ds).getD 0 0 + 1).toNat = ds.length + 1 := by
      simp [descriptor]
    rw [hk] at h
    have h0 := h 0 (le_refl 0) (by omega)
    simp only [descriptor, List.getD_cons_zero] at h0
    have hlen : bs.length = ds.length := by exact_mod_cast h0
    have hbs : bs = ds := by
      apply List.ext_getElem hlen
      intro n h1 h2
      have hn := h (n + 1) (by omega) (by omega)
      simp only [descriptor, List.getD_cons_succ] at hn
      rw [List.getD_eq_getElem _ _ h1, List.getD_eq_getElem _ _ h2] at hn
      exact hn
    rw [hbs]
  · intro h
    rw [h]
    unfold same_dims
    rw [same_dims_loop_iff]
    intro j _ _
    rfl

/-- C1: for an instance with dimension list `D` and a numeric buffer with
dimension list `B` (rank followed by the axis lengths), `rewrap` ends with the
error "bad dimensions" exactly when `B` differs from `D`, whatever the number
of elements; with `B = D` the dimension check passes and the vector is handed
to the library. -/
theorem rewrap_bad_dimensions_iff {S R : Type} (C : yconv R) (L : opk_library S R)
    (w : World S R) (vect : vect_sel) (buf : YArg R) (ds B : List Int)
    (hD : w.opt.dims = descriptor ds) (hB : buffer_descriptor buf = some B) :
    ((rewrap C L buf w vect).2 = .error (.y_error "bad dimensions") ↔ B ≠ w.opt.dims) ∧
    (B = w.opt.dims →
      (rewrap C L buf w vect).1.trace = w.trace ++ [.rewrap_vector]) := by
  have key : ∀ (data : List R) (bs : List Int),
      ((if ¬ same_dims w.opt.dims (descriptor bs) = true then
          (w, (.error (.y_error "bad dimensions") : Except Err Unit))
        else
          let r := opk_rewrap_simple_vector L w vect data
          if ¬ r.2 = true then (r.1, .error (.y_error "failed to wrap vector"))
          else (r.1, .ok ())).2 = .error (.y_error "bad dimensions")
        ↔ descriptor bs ≠ w.opt.dims) ∧
      (descriptor bs = w.opt.dims →
        (if ¬ same_dims w.opt.dims (descriptor bs) = true then
          (w, (.error (.y_error "bad dimensions") : Except Err Unit))
        else
          let r := opk_rewrap_simple_vector L w vect data
          if ¬ r.2 = true then (r.1, .error (.y_error "failed to wrap vector"))
          else (r.1, .ok ())).1.trace = w.trace ++ [.rewrap_vector]) := by
    intro data bs
    rw [hD]
    by_cases hs : same_dims (descriptor ds) (descriptor bs) = true
    · have he := (same_dims_descriptor ds bs).1 hs
      rw [he] at hs ⊢
      unfold opk_rewrap_simple_vector
      by_cases hok : L.succeeds w.trace .rewrap_vector = true
      · simp [hok, hs]
      · simp [hok, hs]
    · have he : ¬ descriptor bs = descriptor ds := fun h => hs ((same_dims_descriptor ds bs).2 h)
      simp [hs, he]
  cases buf with
  | void => simp [buffer_descriptor] at hB
  | other k dims => simp [buffer_descriptor] at hB
  | non_array k => simp [buffer_descriptor] at hB
  | ints k dims vals =>
    simp only [buffer_descriptor, Option.some.injEq] at hB
    subst hB
    unfold rewrap
    by_cases hsg : w.opt.single = true
    · simp only [hsg, if_true, ygeta_f]
      exact key _ dims
    · simp only [hsg, if_false, ygeta_d]
      exact key _ dims
  | reals k dims vals =>
    simp only [buffer_descriptor, Option.some.injEq] at hB
    subst hB
    unfold rewrap
    by_cases hsg : w.opt.single = true
    · cases k
      · simp only [hsg, if_true, ygeta_f]
        exact key _ dims
      · simp only [hsg, if_true, ygeta_f]
        exact key _ dims
    · simp only [hsg, if_false, ygeta_d]
      exact key _ dims

/-- Witness of C1: a 2x3 instance given a 3x2 buffer of six elements. -/
theorem rewrap_bad_dimensions_iff_witness :
    ((rewrap demo_conv demo_library (.reals .double [3, 2] [1, 2, 3, 4, 5, 6])
        (demo_world .nlcg [2, 2, 3] 6 .compute_fg 0) .x).2
        = .error (.y_error "bad dimensions") ↔
      [2, 3, 2] ≠ (demo_world .nlcg [2, 2, 3] 6 .compute_fg 0).opt.dims) ∧
    ([2, 3, 2] = (demo_world .nlcg [2, 2, 3] 6 .compute_fg 0).opt.dims →
      (rewrap demo_conv demo_library (.reals .double [3, 2] [1, 2, 3, 4, 5, 6])
        (demo_world .nlcg [2, 2, 3] 6 .compute_fg 0) .x).1.trace
        = (demo_world .nlcg [2, 2, 3] 6 .compute_fg 0).trace ++ [.rewrap_vector]) :=
  rewrap_bad_dimensions_iff demo_conv demo_library
    (demo_world .nlcg [2, 2, 3] 6 .compute_fg 0) .x
    (.reals .double [3, 2] [1, 2, 3, 4, 5, 6]) [2, 3] [2, 3, 2] rfl rfl

/-! ### Frame properties of `rewrap` -/

theorem opk_rewrap_simple_vector_frame {S R : Type} (L : opk_library S R)
    (w : World S R) (vect : vect_sel) (data : List R) :
    (opk_rewrap_simple_vector L w vect data).1.opt.optimizer = w.opt.optimizer ∧
    (opk_rewrap_simple_vector L w vect data).1.opt.ops = w.opt.ops ∧
    (opk_rewrap_simple_vector L w vect data).1.opt.dims = w.opt.dims ∧
    (opk_rewrap_simple_vector L w vect data).1.opt.single = w.opt.single ∧
    (opk_rewrap_simple_vector L w vect data).1.trace = w.trace ++ [.rewrap_vector] ∧
    ((opk_rewrap_simple_vector L w vect data).2 = L.succeeds w.trace .rewrap_vector) := by
  unfold opk_rewrap_simple_vector
  by_cases hok : L.succeeds w.trace .rewrap_vector = true
  · cases vect <;> simp [hok]
  · cases vect <;> simp [hok]

/-- With the instance's dimension list the buffer reaches the library, and
`rewrap` fails only if the library does. -/
theorem rewrap_same {S R : Type} (C : yconv R) (L : opk_library S R)
    (w : World S R) (vect : vect_sel) (buf : YArg R) (ds : List Int)
    (hD : w.opt.dims = descriptor ds)
    (hB : buffer_descriptor buf = some w.opt.dims) :
    ∃ data : List R,
      rewrap C L buf w vect =
        ((opk_rewrap_simple_vector L w vect data).1,
          if (opk_rewrap_simple_vector L w vect data).2 = true then .ok ()
          else .error (.y_error "failed to wrap vector")) := by
  have hs : ∀ bs : List Int, descriptor bs = w.opt.dims →
      same_dims w.opt.dims (descriptor bs) = true := by
    intro bs hbs
    rw [hD] at hbs ⊢
    exact (same_dims_descriptor ds bs).2 hbs
  have key : ∀ (data : List R) (bs : List Int), descriptor bs = w.opt.dims →
      (if ¬ same_dims w.opt.dims (descriptor bs) = true then
          (w, (.error (.y_error "bad dimensions") : Except Err Unit))
        else
          let r := opk_rewrap_simple_vector L w vect data
          if ¬ r.2 = true then (r.1, .error (.y_error "failed to wrap vector"))
          else (r.1, .ok ())) =
        ((opk_rewrap_simple_vector L w vect data).1,
          if (opk_rewrap_simple_vector L w vect data).2 = true then .ok ()
          else .error (.y_error "failed to wrap vector")) := by
    intro data bs hbs
    simp only [hs bs hbs, not_true_eq_false, if_false]
    by_cases h2 : (opk_rewrap_simple_vector L w vect data).2 = true
    · simp [h2]
    · simp [h2]
  cases buf with
  | void => simp [buffer_descriptor] at hB
  | other k dims => simp [buffer_descriptor] at hB
  | non_array k => simp [buffer_descriptor] at hB
  | ints k dims vals =>
    simp only [buffer_descriptor, Option.some.injEq] at hB
    unfold rewrap
    by_cases hsg : w.opt.single = true
    · simp only [hsg, if_true, ygeta_f]
      exact ⟨_, key _ dims hB⟩
    · simp only [hsg, if_false, ygeta_d]
      exact ⟨_, key _ dims hB⟩
  | reals k dims vals =>
    simp only [buffer_descriptor, Option.some.injEq] at hB
    unfold rewrap
    by_cases hsg : w.opt.single = true
    · cases k
      · simp only [hsg, if_true, ygeta_f]
        exact ⟨_, key _ dims hB⟩
      · simp only [hsg, if_true, ygeta_f]
        exact ⟨_, key _ dims hB⟩
    · simp only [hsg, if_false, ygeta_d]
      exact ⟨_, key _ dims hB⟩

/-- With another dimension list, or with no numeric array, `rewrap` raises an
error and leaves the instance and the trace as they were. -/
theorem rewrap_diff {S R : Type} (C : yconv R) (L : opk_library S R)
    (w : World S R) (vect : vect_sel) (buf : YArg R) (ds : List Int)
    (hD : w.opt.dims = descriptor ds)
    (hB : buffer_descriptor buf ≠ some w.opt.dims) :
    ∃ e : Err, rewrap C L buf w vect = (w, .error e) := by
  have key : ∀ (data : List R) (bs : List Int), descriptor bs ≠ w.opt.dims →
      (if ¬ same_dims w.opt.dims (descriptor bs) = true then
          (w, (.error (.y_error "bad dimensions") : Except Err Unit))
        else
          let r := opk_rewrap_simple_vector L w vect data
          if ¬ r.2 = true then (r.1, .error (.y_error "failed to wrap vector"))
          else (r.1, .ok ())) = (w, .error (.y_error "bad dimensions")) := by
    intro data bs hbs
    have hs : ¬ same_dims w.opt.dims (descriptor bs) = true := by
      intro h
      rw [hD] at h hbs
      exact hbs ((same_dims_descriptor ds bs).1 h)
    simp [hs]
  cases buf with
  | void => cases hsg : w.opt.single <;> simp [rewrap, hsg, ygeta_f, ygeta_d]
  | other k dims => cases hsg : w.opt.single <;> simp [rewrap, hsg, ygeta_f, ygeta_d]
  | non_array k => cases hsg : w.opt.single <;> simp [rewrap, hsg, ygeta_f, ygeta_d]
  | ints k dims vals =>
    simp only [buffer_descriptor, ne_eq, Option.some.injEq] at hB
    unfold rewrap
    by_cases hsg : w.opt.single = true
    · simp only [hsg, if_true, ygeta_f]
      exact ⟨_, key _ dims hB⟩
    · simp only [hsg, if_false, ygeta_d]
      exact ⟨_, key _ dims hB⟩
  | reals k dims vals =>
    simp only [buffer_descriptor, ne_eq, Option.some.injEq] at hB
    unfold rewrap
    by_cases hsg : w.opt.single = true
    · cases k
      · simp only [hsg, if_true, ygeta_f]
        exact ⟨_, key _ dims hB⟩
      · simp only [hsg, if_true, ygeta_f]
        exact ⟨_, key _ dims hB⟩
    · simp only [hsg, if_false, ygeta_d]
      exact ⟨_, key _ dims hB⟩

theorem ITERATE_trace {S R : Type} (L : opk_library S R) (w : World S R) (fx : R) :
    (ITERATE L w fx).1.trace = w.trace ++ [iterate_call w.opt.ops] := by
  unfold ITERATE
  cases h : w.opt.ops <;>
    simp [ops_table.deref, nlcg_ops, vmlmb_ops, nlcg_iterate, vmlmb_iterate, iterate_call]

theorem START_trace {S R : Type} (L : opk_library S R) (w : World S R) :
    (START L w).1.trace = w.trace ++ [start_call w.opt.ops] := by
  unfold START
  cases h : w.opt.ops <;>
    simp [ops_table.deref, nlcg_ops, vmlmb_ops, nlcg_start, vmlmb_start, start_call]

/-- C2, counterexample: a conjugate-gradient instance whose task is the
terminal `final_x`, called with correctly dimensioned `x` and `gx`: the call
is not rejected, the iterate operation of the library is invoked (fourth
evaluation) and its task is pushed. -/
theorem iterate_after_final_counterexample :
    GET_TASK demo_library (demo_world .nlcg [1, 2] 2 .final_x 3).opt = .final_x ∧
    (Y_opk_iterate demo_conv demo_library (demo_world .nlcg [1, 2] 2 .final_x 3)
      [.reals .double [2] [0, 0], .reals .double [] [7], .reals .double [2] [1, 1]]).2
      = .ok (.int 1) ∧
    (Y_opk_iterate demo_conv demo_library (demo_world .nlcg [1, 2] 2 .final_x 3)
      [.reals .double [2] [0, 0], .reals .double [] [7], .reals .double [2] [1, 1]]).1.trace
      = [.rewrap_vector, .rewrap_vector, .iterate_nlcg] ∧
    (Y_opk_iterate demo_conv demo_library (demo_world .nlcg [1, 2] 2 .final_x 3)
      [.reals .double [2] [0, 0], .reals .double [] [7],
        .reals .double [2] [1, 1]]).1.opt.optimizer.evaluations = 4 :=
  ⟨rfl, rfl, rfl, rfl⟩

/-- C2, amended: whatever the current task of the instance, terminal or not,
`Y_opk_iterate` called with correctly dimensioned `x` and `gx` and a numeric
scalar `fx` does not raise "invalid task sequence"; once the library has
rebound both vectors the call is forwarded to the iterate operation of the
table of the instance, whose optimizer is still the one before the call, and
the task that operation returns is pushed. -/
theorem Y_opk_iterate_forwards {S R : Type} (C : yconv R) (L : opk_library S R)
    (w : World S R) (x fxarg gx : YArg R) (fx : R) (ds : List Int)
    (hD : w.opt.dims = descriptor ds)
    (hx : buffer_descriptor x = some w.opt.dims)
    (hgx : buffer_descriptor gx = some w.opt.dims)
    (hfx : ygets_d C fxarg = .ok fx) :
    (Y_opk_iterate C L w [x, fxarg, gx]).2 ≠ .error (.y_error "invalid task sequence") ∧
    (L.succeeds w.trace .rewrap_vector = true →
      L.succeeds (w.trace ++ [.rewrap_vector]) .rewrap_vector = true →
      ∃ w2 : World S R,
        w2.opt.optimizer = w.opt.optimizer ∧ w2.opt.ops = w.opt.ops ∧
        w2.trace = w.trace ++ [.rewrap_vector, .rewrap_vector] ∧
        Y_opk_iterate C L w [x, fxarg, gx]
          = ((ITERATE L w2 fx).1, .ok (.int (L.task_code (ITERATE L w2 fx).2))) ∧
        (Y_opk_iterate C L w [x, fxarg, gx]).1.trace
          = w.trace ++ [.rewrap_vector, .rewrap_vector, iterate_call w.opt.ops]) := by
  obtain ⟨dx, hrx⟩ := rewrap_same C L w .x x ds hD hx
  obtain ⟨f1, f2, f3, f4, f5, f6⟩ := opk_rewrap_simple_vector_frame L w .x dx
  have hD1 : (opk_rewrap_simple_vector L w .x dx).1.opt.dims = descriptor ds := by
    rw [f3, hD]
  have hgx1 : buffer_descriptor gx = some (opk_rewrap_simple_vector L w .x dx).1.opt.dims := by
    rw [f3, hgx]
  obtain ⟨dg, hrg⟩ :=
    rewrap_same C L (opk_rewrap_simple_vector L w .x dx).1 .gx gx ds hD1 hgx1
  obtain ⟨g1, g2, g3, g4, g5, g6⟩ :=
    opk_rewrap_simple_vector_frame L (opk_rewrap_simple_vector L w .x dx).1 .gx dg
  unfold Y_opk_iterate
  by_cases hok1 : L.succeeds w.trace .rewrap_vector = true
  · have e1 : (opk_rewrap_simple_vector L w .x dx).2 = true := by rw [f6, hok1]
    by_cases hok2 : L.succeeds (w.trace ++ [.rewrap_vector]) .rewrap_vector = true
    · have e2 : (opk_rewrap_simple_vector L
          (opk_rewrap_simple_vector L w .x dx).1 .gx dg).2 = true := by
        rw [g6, f5, hok2]
      simp only [hrx, e1, if_true, hfx, hrg, e2]
      refine ⟨by simp, fun _ _ => ⟨_, ?_, ?_, ?_, rfl, ?_⟩⟩
      · rw [g1, f1]
      · rw [g2, f2]
      · rw [g5, f5]
        simp
      · rw [ITERATE_trace, g5, f5, g2, f2]
        simp
    · have e2 : (opk_rewrap_simple_vector L
          (opk_rewrap_simple_vector L w .x dx).1 .gx dg).2 = false := by
        rw [g6, f5]
        simpa using hok2
      simp only [hrx, e1, if_true, hfx, hrg, e2]
      refine ⟨by simp, fun _ h => absurd h hok2⟩
  · have e1 : (opk_rewrap_simple_vector L w .x dx).2 = false := by
      rw [f6]
      simpa using hok1
    simp only [hrx, e1]
    refine ⟨by simp, fun h => absurd h hok1⟩

/-- Witness of C2 (amended) at the instance of the counterexample. -/
theorem Y_opk_iterate_forwards_witness :
    (Y_opk_iterate demo_conv demo_library (demo_world .nlcg [1, 2] 2 .final_x 3)
      [.reals .double [2] [0, 0], .reals .double [] [7], .reals .double [2] [1, 1]]).2
      ≠ .error (.y_error "invalid task sequence") :=
  (Y_opk_iterate_forwards demo_conv demo_library (demo_world .nlcg [1, 2] 2 .final_x 3)
    (.reals .double [2] [0, 0]) (.reals .double [] [7]) (.reals .double [2] [1, 1]) 7 [2]
    rfl rfl rfl rfl).1

theorem backend_view_congr {S R : Type} (L : opk_library S R)
    (a b : yopt_instance S R) (h1 : a.optimizer = b.optimizer) (h2 : a.ops = b.ops) :
    backend_view L a = backend_view L b := by
  unfold backend_view GET_TASK GET_STATUS GET_ITERATIONS GET_EVALUATIONS GET_RESTARTS
    GET_PROJECTIONS
  rw [h2]
  cases b.ops <;>
    simp [ops_table.deref, nlcg_ops, vmlmb_ops, nlcg_get_task, nlcg_get_status,
      nlcg_get_iterations, nlcg_get_evaluations, nlcg_get_restarts, nlcg_get_projections,
      vmlmb_get_task, vmlmb_get_status, vmlmb_get_iterations, vmlmb_get_evaluations,
      vmlmb_get_restarts, vmlmb_get_projections, h1]

theorem aborted_without_step_of {S R : Type} (L : opk_library S R) (w w1 : World S R)
    (e : Err) (added : List opk_call)
    (h1 : w1.opt.optimizer = w.opt.optimizer) (h2 : w1.opt.ops = w.opt.ops)
    (h3 : w1.trace = w.trace ++ added) (h4 : ∀ c ∈ added, c.is_optimizer_step = false) :
    aborted_without_step L w (w1, .error e) :=
  ⟨⟨e, rfl⟩, h1, h2, backend_view_congr L _ _ h1 h2, added, h3, h4⟩

/-- C3: when the `x` buffer of a start call, or the `x` or the `gx` buffer of
an iterate call, does not have the instance's dimension list, the call raises
an error, no start or iterate operation of the library is invoked in it, and
the optimizer, hence the task, the status and the counters read through the
operation table, are the same after the call as before. -/
theorem dimension_mismatch_keeps_backend {S R : Type} (C : yconv R)
    (L : opk_library S R) (w : World S R) (ds : List Int)
    (hD : w.opt.dims = descriptor ds) :
    (∀ x : YArg R, buffer_descriptor x ≠ some w.opt.dims →
      aborted_without_step L w (Y_opk_start C L w [x])) ∧
    (∀ x fxarg gx : YArg R,
      buffer_descriptor x ≠ some w.opt.dims ∨ buffer_descriptor gx ≠ some w.opt.dims →
      aborted_without_step L w (Y_opk_iterate C L w [x, fxarg, gx])) := by
  constructor
  · intro x hx
    obtain ⟨e, he⟩ := rewrap_diff C L w .x x ds hD hx
    unfold Y_opk_start
    simp only [he]
    exact aborted_without_step_of L w w e [] rfl rfl (by simp) (by simp)
  · intro x fxarg gx hbad
    unfold Y_opk_iterate
    by_cases hx : buffer_descriptor x = some w.opt.dims
    · have hgx : buffer_descriptor gx ≠ some w.opt.dims := by
        rcases hbad with h | h
        · exact absurd hx h
        · exact h
      obtain ⟨dx, hrx⟩ := rewrap_same C L w .x x ds hD hx
      obtain ⟨f1, f2, f3, f4, f5, f6⟩ := opk_rewrap_simple_vector_frame L w .x dx
      have hstep : ∀ c ∈ [opk_call.rewrap_vector], c.is_optimizer_step = false := by
        simp [opk_call.is_optimizer_step]
      by_cases hok : (opk_rewrap_simple_vector L w .x dx).2 = true
      · simp only [hrx, hok, if_true]
        cases hfx : ygets_d C fxarg with
        | error e =>
          exact aborted_without_step_of L w _ e [.rewrap_vector] f1 f2 f5 hstep
        | ok fx =>
          have hD1 : (opk_rewrap_simple_vector L w .x dx).1.opt.dims = descriptor ds := by
            rw [f3, hD]
          have hgx1 : buffer_descriptor gx
              ≠ some (opk_rewrap_simple_vector L w .x dx).1.opt.dims := by
            rw [f3]
            exact hgx
          obtain ⟨e, he⟩ :=
            rewrap_diff C L (opk_rewrap_simple_vector L w .x dx).1 .gx gx ds hD1 hgx1
          simp only [he]
          exact aborted_without_step_of L w _ e [.rewrap_vector] f1 f2 f5 hstep
      · simp only [hrx, hok]
        exact aborted_without_step_of L w _ _ [.rewrap_vector] f1 f2 f5 hstep
    · obtain ⟨e, he⟩ := rewrap_diff C L w .x x ds hD hx
      simp only [he]
      exact aborted_without_step_of L w w e [] rfl rfl (by simp) (by simp)

/-- Witness of C3: a 2x3 instance, started with a buffer of six elements in
one axis, and iterated with a good `x` and a 3x2 `gx`. -/
theorem dimension_mismatch_keeps_backend_witness :
    aborted_without_step demo_library (demo_world .vmlmb [2, 2, 3] 6 .new_x 2)
      (Y_opk_start demo_conv demo_library (demo_world .vmlmb [2, 2, 3] 6 .new_x 2)
        [.reals .double [6] [0, 0, 0, 0, 0, 0]]) ∧
    aborted_without_step demo_library (demo_world .vmlmb [2, 2, 3] 6 .new_x 2)
      (Y_opk_iterate demo_conv demo_library (demo_world .vmlmb [2, 2, 3] 6 .new_x 2)
        [.reals .double [2, 3] [0, 0, 0, 0, 0, 0], .reals .double [] [1],
          .reals .double [3, 2] [0, 0, 0, 0, 0, 0]]) :=
  ⟨(dimension_mismatch_keeps_backend demo_conv demo_library
      (demo_world .vmlmb [2, 2, 3] 6 .new_x 2) [2, 3] rfl).1
      (.reals .double [6] [0, 0, 0, 0, 0, 0]) (by decide),
    (dimension_mismatch_keeps_backend demo_conv demo_library
      (demo_world .vmlmb [2, 2, 3] 6 .new_x 2) [2, 3] rfl).2
      (.reals .double [2, 3] [0, 0, 0, 0, 0, 0]) (.reals .double [] [1])
      (.reals .double [3, 2] [0, 0, 0, 0, 0, 0]) (Or.inr (by decide))⟩

/-! ### `get_dims` -/

theorem wrap_long_modEq (z : Int) : wrap_long z ≡ z [ZMOD 2 ^ 64] := by
  unfold wrap_long
  have h := (Int.mod_modEq (z + 2 ^ 63) (2 ^ 64)).sub_right (2 ^ 63)
  have e : z + 2 ^ 63 - 2 ^ 63 = z := by ring
  rw [e] at h
  exact h

theorem wrap_long_congr {a b : Int} (h : a ≡ b [ZMOD 2 ^ 64]) :
    wrap_long a = wrap_long b := by
  unfold wrap_long
  have h2 : (a + 2 ^ 63) % 2 ^ 64 = (b + 2 ^ 63) % 2 ^ 64 := h.add_right (2 ^ 63)
  rw [h2]

theorem wrap_long_of_range {z : Int} (h1 : -2 ^ 63 ≤ z) (h2 : z < 2 ^ 63) :
    wrap_long z = z := by
  unfold wrap_long
  omega

theorem wrap_long_mul (a d : Int) : wrap_long (wrap_long a * d) = wrap_long (a * d) :=
  wrap_long_congr ((wrap_long_modEq a).mul_right d)

/-- The loop of `get_dims` succeeds exactly when the lengths it reads are all
positive; it then has appended them and multiplied them into `number`,
reducing to a `long` at every step. -/
theorem get_dims_loop_ok (vals : List Int) :
    ∀ (k i : Nat) (dims : List Int) (number : Int),
      (∀ j : Nat, i ≤ j → j < i + k → 1 ≤ vals.getD j 0) →
      ∃ number2 : Int,
        get_dims_loop vals i k dims number
          = .ok (dims ++ (List.range k).map (fun j => vals.getD (i + j) 0), number2) ∧
        wrap_long number2
          = wrap_long (number * ((List.range k).map (fun j => vals.getD (i + j) 0)).prod) ∧
        (1 ≤ k → number2 = wrap_long number2) ∧ (k = 0 → number2 = number) := by
  intro k
  induction k with
  | zero =>
    intro i dims number _
    exact ⟨number, by simp [get_dims_loop], by simp, by simp, by simp⟩
  | succ k ih =>
    intro i dims number hpos
    have h0 : ¬ vals.getD i 0 < 1 := by
      have := hpos i (le_refl i) (by omega)
      omega
    obtain ⟨n2, e1, e2, e3, e4⟩ :=
      ih (i + 1) (dims ++ [vals.getD i 0]) (wrap_long (number * vals.getD i 0))
        (fun j h1 h2 => hpos j (by omega) (by omega))
    refine ⟨n2, ?_, ?_, ?_, by simp⟩
    · unfold get_dims_loop
      simp only [h0, if_false]
      rw [e1, List.range_succ_eq_map]
      simp [Function.comp_def, Nat.add_assoc, Nat.add_comm 1]
    · rw [e2, List.range_succ_eq_map]
      simp only [List.map_cons, List.map_map, List.prod_cons, add_zero]
      rw [wrap_long_mul, mul_assoc]
      simp [Function.comp_def, Nat.add_assoc, Nat.add_comm 1]
    · intro _
      rcases Nat.eq_zero_or_pos k with hk | hk
      · rw [e4 hk]
        exact (wrap_long_congr (wrap_long_modEq _)).symm
      · exact e3 hk

theorem get_dims_loop_error (vals : List Int) :
    ∀ (k i : Nat) (dims : List Int) (number : Int) (j : Nat),
      i ≤ j → j < i + k → vals.getD j 0 < 1 →
      get_dims_loop vals i k dims number = .error (.y_error "invalid dimension length") := by
  intro k
  induction k with
  | zero =>
    intro i dims number j h1 h2 _
    omega
  | succ k ih =>
    intro i dims number j h1 h2 h3
    unfold get_dims_loop
    by_cases h0 : vals.getD i 0 < 1
    · exact if_pos h0
    · simp only [h0, if_false]
      have hne : i ≠ j := by
        intro h
        subst h
        exact h0 h3
      exact ih (i + 1) _ _ j (by omega) (by omega) h3

theorem range_map_getD (t : List Int) :
    (List.range t.length).map (fun j => t.getD j 0) = t := by
  apply List.ext_getElem
  · simp
  · intro n h1 h2
    simp only [List.getElem_map, List.getElem_range]
    exact List.getD_eq_getElem _ _ h2

theorem typeid_ints_le (k : IntKind) : k.typeid ≠ Y_VOID ∧ ¬ k.typeid > Y_LONG := by
  cases k <;> simp [IntKind.typeid, Y_VOID, Y_LONG, Y_CHAR, Y_SHORT, Y_INT]

/-- `get_dims` on a vector of an integer type. -/
theorem get_dims_vector {R : Type} (k : IntKind) (n a : Int) (t : List Int) :
    get_dims (.ints k [n] (a :: t) : YArg R) =
      if ((a :: t).length : Int) > Y_DIMSIZE then .error (.y_error "too many dimensions")
      else if a = (t.length : Int) then
        (if ∀ i : Nat, i < t.length → 1 ≤ t.getD i 0 then
          .ok (a :: t, wrap_long t.prod)
        else .error (.y_error "invalid dimension length"))
      else .error (.y_error "invalid dimension list") := by
  obtain ⟨hk1, hk2⟩ := typeid_ints_le k
  unfold get_dims
  simp only [yarg_typeid, hk1, hk2, if_false, yarg_rank, List.length_singleton, Nat.cast_one,
    one_ne_zero, if_true, ygeta_l]
  by_cases hbig : ((a :: t).length : Int) > Y_DIMSIZE
  · simp only [hbig, if_true]
  · simp only [hbig, if_false]
    have hnd : ((a :: t).length : Int) - 1 = (t.length : Int) := by
      simp
    simp only [hnd, List.getD_cons_zero, Int.toNat_ofNat]
    by_cases ha : a = (t.length : Int)
    · subst ha
      rw [if_pos rfl, if_pos rfl]
      by_cases hall : ∀ i : Nat, i < t.length → 1 ≤ t.getD i 0
      · rw [if_pos hall]
        obtain ⟨n2, e1, e2, e3, e4⟩ :=
          get_dims_loop_ok ((t.length : Int) :: t) t.length 1 [(t.length : Int)] 1
            (fun j h1 h2 => by
              obtain ⟨j, rfl⟩ : ∃ m, j = m + 1 := ⟨j - 1, by omega⟩
              rw [List.getD_cons_succ]
              exact hall j (by omega))
        have hmap : (List.range t.length).map
            (fun j => ((t.length : Int) :: t).getD (1 + j) 0) = t := by
          have : (fun j => ((t.length : Int) :: t).getD (1 + j) 0) = fun j => t.getD j 0 := by
            funext j
            rw [Nat.add_comm, List.getD_cons_succ]
          rw [this]
          exact range_map_getD t
        rw [hmap, one_mul] at e2
        rw [hmap] at e1
        rw [e1]
        have hn2 : n2 = wrap_long t.prod := by
          rcases Nat.eq_zero_or_pos t.length with h0 | h0
          · have ht : t = [] := List.length_eq_zero.mp h0
            subst ht
            rw [e4 rfl]
            decide
          · rw [e3 h0, e2]
        rw [hn2]
        rfl
      · rw [if_neg hall]
        push_neg at hall
        obtain ⟨i, hi1, hi2⟩ := hall
        exact get_dims_loop_error ((t.length : Int) :: t) t.length 1 [(t.length : Int)] 1
          (i + 1) (by omega) (by omega) (by rw [List.getD_cons_succ]; omega)
    · simp only [ha, if_false]

theorem get_dims_scalar {R : Type} (k : IntKind) (d : Int) (rest : List Int) :
    get_dims (.ints k [] (d :: rest) : YArg R) =
      if d < 1 then .error (.y_error "invalid dimension length") else .ok ([1, d], d) := by
  obtain ⟨hk1, hk2⟩ := typeid_ints_le k
  unfold get_dims
  simp only [yarg_typeid, hk1, hk2, if_false, yarg_rank, List.length_nil, Nat.cast_zero,
    if_true, ygets_l]

theorem get_dims_rank_ge_two {R : Type} (k : IntKind) (n m : Int) (ds vals : List Int) :
    get_dims (.ints k (n :: m :: ds) vals : YArg R)
      = .error (.y_error "invalid dimension list") := by
  obtain ⟨hk1, hk2⟩ := typeid_ints_le k
  unfold get_dims
  have h0 : ¬ ((n :: m :: ds).length : Int) = 0 := by
    simp only [List.length_cons, Nat.cast_add, Nat.cast_one]
    omega
  have h1 : ¬ ((n :: m :: ds).length : Int) = 1 := by
    simp only [List.length_cons, Nat.cast_add, Nat.cast_one]
    omega
  simp only [yarg_typeid, hk1, hk2, if_false, yarg_rank, h0, h1]

theorem get_dims_not_integer {R : Type} (arg : YArg R)
    (h : ∀ k dims vals, arg ≠ .ints k dims vals) (hv : arg ≠ .void) :
    get_dims arg = .error (.y_error "invalid type for dimension list") := by
  unfold get_dims
  cases arg with
  | void => exact absurd rfl hv
  | ints k dims vals => exact absurd rfl (h k dims vals)
  | reals k dims vals =>
    cases k <;> simp [yarg_typeid, RealKind.typeid, Y_VOID, Y_LONG, Y_FLOAT, Y_DOUBLE]
  | other k dims =>
    cases k <;>
      simp [yarg_typeid, OtherKind.typeid, Y_VOID, Y_LONG, Y_COMPLEX, Y_STRING, Y_POINTER,
        Y_STRUCT]
  | non_array k =>
    cases k <;>
      simp [yarg_typeid, NonArrayKind.typeid, Y_VOID, Y_LONG, Y_RANGE, Y_FUNCTION, Y_BUILTIN,
        Y_STRUCTDEF, Y_STREAM, Y_OPAQUE]

/-- The arguments `get_dims` accepts, with the dimension list and the count
it gives for each: nil; an integer scalar `d ≥ 1`; an integer vector `v` of
at most `Y_DIMSIZE` elements with `v[0]` its length minus one and all other
entries positive, the count being the product of these entries reduced to a
`long`.  Every other argument ends in an error. -/
theorem get_dims_accepts_iff {R : Type} (arg : YArg R) (hwf : arg.wf) (desc : List Int)
    (count : Int) :
    get_dims arg = .ok (desc, count) ↔
      (arg = .void ∧ desc = [0] ∧ count = 1) ∨
      (∃ k d, arg = .ints k [] [d] ∧ 1 ≤ d ∧ desc = [1, d] ∧ count = d) ∨
      (∃ k v, arg = .ints k [(v.length : Int)] v ∧ (v.length : Int) ≤ Y_DIMSIZE ∧
        v.getD 0 0 = (v.length : Int) - 1 ∧
        (∀ i : Nat, 1 ≤ i → i < v.length → 1 ≤ v.getD i 0) ∧
        desc = v ∧ count = wrap_long v.tail.prod) := by
  cases arg with
  | void =>
    have h : get_dims (.void : YArg R) = .ok ([0], 1) := by
      simp [get_dims, yarg_typeid]
    rw [h]
    simp only [Except.ok.injEq, Prod.mk.injEq, true_and, reduceCtorEq, false_and,
      exists_false, or_false]
    constructor
    · rintro ⟨h1, h2⟩
      exact ⟨h1.symm, h2.symm⟩
    · rintro ⟨h1, h2⟩
      exact ⟨h1.symm, h2.symm⟩
  | reals k dims vals =>
    rw [get_dims_not_integer _ (by intro _ _ _ h; cases h) (by intro h; cases h)]
    simp
  | other k dims =>
    rw [get_dims_not_integer _ (by intro _ _ _ h; cases h) (by intro h; cases h)]
    simp
  | non_array k =>
    rw [get_dims_not_integer _ (by intro _ _ _ h; cases h) (by intro h; cases h)]
    simp
  | ints k dims vals =>
    obtain ⟨hpos, _, hlen⟩ := hwf
    match dims, vals with
    | [], [] => simp [count_of] at hlen
    | [], d :: rest =>
      have hrest : rest = [] := by
        simp only [count_of, List.prod_nil, List.length_cons, Nat.cast_add, Nat.cast_one] at hlen
        have : rest.length = 0 := by omega
        exact List.length_eq_zero.mp this
      subst hrest
      rw [get_dims_scalar]
      by_cases hd : d < 1
      · simp only [hd, if_true, reduceCtorEq, false_and, false_or, YArg.ints.injEq,
          List.cons.injEq, and_true, true_and, List.nil_eq, false_iff, not_or, not_exists,
          not_and]
        refine ⟨fun k2 d2 h1 h2 => ?_, fun k2 v h1 => ?_⟩
        · obtain ⟨_, rfl⟩ := h1
          omega
        · exact h1.2.elim
      · simp only [hd, if_false, Except.ok.injEq, Prod.mk.injEq, reduceCtorEq, false_and,
          false_or, YArg.ints.injEq, List.cons.injEq, and_true, true_and, List.nil_eq]
        constructor
        · rintro ⟨h1, h2⟩
          exact Or.inl ⟨k, d, ⟨rfl, rfl⟩, by omega, h1.symm, h2.symm⟩
        · rintro (⟨k2, d2, ⟨_, rfl⟩, _, h3, h4⟩ | ⟨k2, v, h1, _⟩)
          · exact ⟨h3.symm, h4.symm⟩
          · exact h1.2.elim
    | [n], [] =>
      have hn := hpos n (by simp)
      simp only [count_of, List.prod_cons, List.prod_nil, mul_one, List.length_nil,
        Nat.cast_zero] at hlen
      omega
    | [n], a :: t =>
      have hn : n = ((a :: t).length : Int) := by
        simp only [count_of, List.prod_cons, List.prod_nil, mul_one] at hlen
        exact hlen.symm
      rw [get_dims_vector]
      have hgt : ((a :: t).length : Int) > Y_DIMSIZE ↔ ¬ ((a :: t).length : Int) ≤ Y_DIMSIZE := by
        constructor <;> intro h <;> omega
      have hall : (∀ i : Nat, i < t.length → 1 ≤ t.getD i 0) ↔
          (∀ i : Nat, 1 ≤ i → i < (a :: t).length → 1 ≤ (a :: t).getD i 0) := by
        constructor
        · intro h i h1 h2
          obtain ⟨j, rfl⟩ : ∃ m, i = m + 1 := ⟨i - 1, by omega⟩
          rw [List.getD_cons_succ]
          exact h j (by simpa using h2)
        · intro h i h1
          have := h (i + 1) (by omega) (by simpa using h1)
          rwa [List.getD_cons_succ] at this
      have ha : a = (t.length : Int) ↔ (a :: t).getD 0 0 = ((a :: t).length : Int) - 1 := by
        simp
      constructor
      · intro h
        by_cases hbig : ((a :: t).length : Int) > Y_DIMSIZE
        · rw [if_pos hbig] at h
          cases h
        · rw [if_neg hbig] at h
          by_cases ha2 : a = (t.length : Int)
          · rw [if_pos ha2] at h
            by_cases hall2 : ∀ i : Nat, i < t.length → 1 ≤ t.getD i 0
            · rw [if_pos hall2] at h
              simp only [Except.ok.injEq, Prod.mk.injEq] at h
              refine Or.inr (Or.inr ⟨k, a :: t, by rw [hn], by omega, ha.1 ha2, hall.1 hall2,
                h.1.symm, ?_⟩)
              rw [← h.2]
              rfl
            · rw [if_neg hall2] at h
              cases h
          · rw [if_neg ha2] at h
            cases h
      · rintro (⟨h1, _⟩ | ⟨k2, d2, h1, _⟩ | ⟨k2, v, h1, h2, h3, h4, h5, h6⟩)
        · cases h1
        · simp only [YArg.ints.injEq, List.cons.injEq, and_true] at h1
          exact absurd h1.2.1 (by simp)
        · simp only [YArg.ints.injEq, List.cons.injEq, and_true] at h1
          obtain ⟨_, _, hv⟩ := h1
          subst hv
          rw [if_neg (by omega), if_pos (ha.2 h3), if_pos (hall.2 h4), h5, h6]
          rfl
    | n :: m :: ds, vals =>
      rw [get_dims_rank_ge_two]
      simp only [reduceCtorEq, false_and, false_or, YArg.ints.injEq, List.cons.injEq,
        false_iff, not_or, not_exists, not_and]
      refine ⟨fun k2 d2 h1 => ?_, fun k2 v h1 => ?_⟩
      · exact h1.2.elim
      · exact h1.2.1.2.elim

theorem copy_dims_loop_eq (src : List Int) :
    ∀ (k i : Nat) (dst : List Int),
      copy_dims_loop src i k dst = dst ++ (List.range k).map (fun j => src.getD (i + j) 0) := by
  intro k
  induction k with
  | zero =>
    intro i dst
    simp [copy_dims_loop]
  | succ k ih =>
    intro i dst
    unfold copy_dims_loop
    rw [ih, List.range_succ_eq_map]
    simp [Function.comp_def, Nat.add_assoc, Nat.add_comm 1]

/-- Copying a well formed dimension list gives the list itself. -/
theorem copy_dims_descriptor (ds : List Int) : copy_dims (descriptor ds) = descriptor ds := by
  unfold copy_dims
  have hk : ((descriptor ds).getD 0 0 + 1).toNat = (descriptor ds).length := by
    simp [descriptor]
  simp only [hk, copy_dims_loop_eq, List.nil_append, Nat.zero_add]
  exact range_map_getD (descriptor ds)

theorem one_le_prod (l : List Int) (h : ∀ d ∈ l, 1 ≤ d) : 1 ≤ l.prod := by
  induction l with
  | nil => simp
  | cons a t ih =>
    have ha : 1 ≤ a := h a (by simp)
    have ht : 1 ≤ t.prod := ih (fun d hd => h d (by simp [hd]))
    rw [List.prod_cons]
    nlinarith

/-- What `get_dims` gives when it accepts: a well formed dimension list of
positive lengths, with their product as count when this product fits a
`long`. -/
theorem get_dims_descriptor {R : Type} (arg : YArg R) (hwf : arg.wf) (desc : List Int)
    (count : Int) (h : get_dims arg = .ok (desc, count)) :
    desc = descriptor desc.tail ∧ (∀ d ∈ desc.tail, 1 ≤ d) ∧
      (count_of desc.tail < 2 ^ 63 → count = count_of desc.tail ∧ 1 ≤ count) := by
  rcases (get_dims_accepts_iff arg hwf desc count).1 h with
    ⟨_, h2, h3⟩ | ⟨k, d, _, h2, h3, h4⟩ | ⟨k, v, _, _, h3, h4, h5, h6⟩
  · subst h2 h3
    exact ⟨rfl, by simp, fun _ => by decide⟩
  · subst h3
    rw [h4]
    refine ⟨rfl, by simpa using h2, fun _ => ?_⟩
    simp only [count_of, List.tail_cons, List.prod_cons, List.prod_nil, mul_one]
    exact ⟨trivial, h2⟩
  · subst h5
    match desc, h3, h4, h6 with
    | [], h3, _, _ => simp at h3
    | a :: t, h3, h4, h6 =>
      simp only [List.getD_cons_zero, List.length_cons, Nat.cast_add, Nat.cast_one,
        add_sub_cancel_right] at h3
      have hpos : ∀ d ∈ (a :: t).tail, 1 ≤ d := by
        intro d hd
        simp only [List.tail_cons] at hd
        obtain ⟨i, hi, rfl⟩ := List.getElem_of_mem hd
        have := h4 (i + 1) (by omega) (by simpa using hi)
        rw [List.getD_cons_succ, List.getD_eq_getElem _ _ hi] at this
        exact this
      refine ⟨by simp [descriptor, h3], hpos, fun hlt => ?_⟩
      have h1 := one_le_prod _ hpos
      have hw : wrap_long (count_of (a :: t).tail) = count_of (a :: t).tail :=
        wrap_long_of_range (by unfold count_of; omega) hlt
      rw [h6]
      unfold count_of at hw ⊢
      rw [hw]
      exact ⟨rfl, h1⟩

/-- C6, failing input: the integer vector `[2, 2^32, 2^32]` is accepted with
itself as dimension list, but the count returned is `0` whereas the product of
its lengths is `2^64`: the product of the loop is a C `long` product. -/
theorem get_dims_count_not_product :
    get_dims (.ints .long [3] [2, 4294967296, 4294967296] : YArg Int)
      = .ok ([2, 4294967296, 4294967296], 0) ∧
    count_of [4294967296, 4294967296] = 18446744073709551616 := by
  constructor
  · rfl
  · decide

/-- C7, failing input: given the dimension list `[2, 2^32, 2^32]`, all of whose
lengths are positive, both constructors ask the library for a vector space of
`0` elements. -/
theorem constructors_request_empty_space :
    (∃ desc : List Int,
      get_dims (.ints .long [3] [2, 4294967296, 4294967296] : YArg Int) = .ok (desc, 0)) ∧
    Y_opk_nlcg demo_conv demo_library
        [.pos (.ints .long [3] [2, 4294967296, 4294967296])] []
      = ([.new_vector_space false 0], .error (.y_error "failed to create vector space")) ∧
    Y_opk_vmlmb demo_conv demo_library
        [.pos (.ints .long [3] [2, 4294967296, 4294967296])] []
      = ([.new_vector_space false 0], .error (.y_error "failed to create vector space")) := by
  have h : get_dims (.ints .long [3] [2, 4294967296, 4294967296] : YArg Int)
      = .ok ([2, 4294967296, 4294967296], 0) := rfl
  refine ⟨⟨_, h⟩, ?_, ?_⟩
  · simp [Y_opk_nlcg, Y_opk_nlcg_args, Y_opk_nlcg_arg, h, opk_new_simple_vector_space]
  · simp [Y_opk_vmlmb, Y_opk_vmlmb_args, Y_opk_vmlmb_arg, vmlmb_init, h,
      opk_new_simple_vector_space]

/-! ### `get_bound` -/

theorem memcpy_all {R : Type} (dst src : List R) (h : dst.length = src.length) :
    memcpy dst src src.length = src := by
  unfold memcpy
  rw [List.take_length, List.drop_eq_nil_of_le (le_of_eq h), List.append_nil]

/-- `get_bound` on a numeric array of rank at least one. -/
theorem get_bound_array {S R : Type} (C : yconv R) (L : opk_library S R) (iarg : YArg R)
    (vspace : opk_vspace) (ds : List Int) (single : Bool) (tr : List opk_call)
    (B : List Int) (hr : 0 < yarg_rank iarg) (hB : buffer_descriptor iarg = some B) :
    get_bound C L iarg vspace (descriptor ds) single tr =
      if B ≠ descriptor ds then (tr, .error (.y_error "bad bound dimensions"))
      else if buffer_count iarg ≠ vspace.size then
        (tr, .error (.y_error "bad number of elements for the bound"))
      else if L.succeeds tr .vcreate = false then
        (tr ++ [.vcreate], .error (.y_error "failed to create a \"vector\" for the bound"))
      else if L.succeeds (tr ++ [.vcreate]) (.new_bound true) = false then
        (tr ++ [.vcreate, .new_bound true], .error (.y_error "failed to create the bound"))
      else (tr ++ [.vcreate, .new_bound true],
        .ok (some (.vector (ygeta_elements C single iarg)))) := by
  have key : ∀ (src : List R) (bs : List Int), descriptor bs = B →
      (src.length : Int) = buffer_count iarg →
      (if ¬ same_dims (descriptor ds) (descriptor bs) = true then
          ((tr, .error (.y_error "bad bound dimensions")) :
            List opk_call × Except Err (Option (opk_bound R)))
        else if (src.length : Int) ≠ vspace.size then
          (tr, .error (.y_error "bad number of elements for the bound"))
        else
          match opk_vcreate L tr vspace with
          | (tr1, none) =>
            (tr1, .error (.y_error "failed to create a \"vector\" for the bound"))
          | (tr1, some vector) =>
            match opk_new_bound L tr1 (.vector vector) with
            | (tr2, none) => (tr2, .error (.y_error "failed to create the bound"))
            | (tr2, some _) =>
              (tr2, .ok (some (.vector (memcpy vector src (src.length : Int).toNat))))) =
        if B ≠ descriptor ds then (tr, .error (.y_error "bad bound dimensions"))
        else if buffer_count iarg ≠ vspace.size then
          (tr, .error (.y_error "bad number of elements for the bound"))
        else if L.succeeds tr .vcreate = false then
          (tr ++ [.vcreate], .error (.y_error "failed to create a \"vector\" for the bound"))
        else if L.succeeds (tr ++ [.vcreate]) (.new_bound true) = false then
          (tr ++ [.vcreate, .new_bound true], .error (.y_error "failed to create the bound"))
        else (tr ++ [.vcreate, .new_bound true], .ok (some (.vector src))) := by
    intro src bs hbs hcount
    subst hbs
    rw [← hcount]
    by_cases hs : same_dims (descriptor ds) (descriptor bs) = true
    · have he := (same_dims_descriptor ds bs).1 hs
      rw [if_neg (not_not.mpr hs), if_neg (not_not.mpr he)]
      by_cases hn : (src.length : Int) ≠ vspace.size
      · rw [if_pos hn, if_pos hn]
      · rw [if_neg hn, if_neg hn]
        have hsize : vspace.size.toNat = src.length := by
          have : (src.length : Int) = vspace.size := by simpa using hn
          rw [← this]
          simp
        unfold opk_vcreate opk_new_bound
        cases h1 : L.succeeds tr .vcreate
        · simp
        · cases h2 : L.succeeds (tr ++ [.vcreate]) (.new_bound true)
          · simp [h2]
          · simp only [if_true, h2, Bool.true_eq_false, if_false, Int.toNat_ofNat,
              List.append_assoc, List.singleton_append]
            rw [memcpy_all _ _ (by simp [hsize])]
    · have he : ¬ descriptor bs = descriptor ds :=
        fun h => hs ((same_dims_descriptor ds bs).2 h)
      rw [if_pos hs, if_pos he]
  cases iarg with
  | void => simp [buffer_descriptor] at hB
  | other k dims => simp [buffer_descriptor] at hB
  | non_array k => simp [buffer_descriptor] at hB
  | ints k dims vals =>
    simp only [buffer_descriptor, Option.some.injEq] at hB
    simp only [yarg_rank] at hr
    have h0 : ¬ (dims.length : Int) = 0 := by omega
    unfold get_bound
    simp only [yarg_rank, h0, if_false, gt_iff_lt, hr, if_true]
    cases single
    · simp only [Bool.false_eq_true, if_false, ygeta_d, ygeta_elements]
      have h := key (vals.map C.l2d) dims hB (by simp [buffer_count])
      simp only [List.length_map] at h
      exact h
    · simp only [if_true, ygeta_f, ygeta_elements]
      have h := key (vals.map C.l2f) dims hB (by simp [buffer_count])
      simp only [List.length_map] at h
      exact h
  | reals k dims vals =>
    simp only [buffer_descriptor, Option.some.injEq] at hB
    simp only [yarg_rank] at hr
    have h0 : ¬ (dims.length : Int) = 0 := by omega
    unfold get_bound
    simp only [yarg_rank, h0, if_false, gt_iff_lt, hr, if_true]
    cases single
    · simp only [Bool.false_eq_true, if_false, ygeta_d, ygeta_elements]
      exact key vals dims hB (by simp [buffer_count])
    · cases k
      · simp only [if_true, ygeta_f, ygeta_elements]
        exact key vals dims hB (by simp [buffer_count])
      · simp only [if_true, ygeta_f, ygeta_elements]
        have h := key (vals.map C.d2f) dims hB (by simp [buffer_count])
        simp only [List.length_map] at h
        exact h

theorem get_bound_void {S R : Type} (C : yconv R) (L : opk_library S R)
    (vspace : opk_vspace) (odims : List Int) (single : Bool) (tr : List opk_call) :
    get_bound C L (.void : YArg R) vspace odims single tr = (tr, .ok none) := by
  simp [get_bound, yarg_rank, yarg_nil]

theorem get_bound_non_array {S R : Type} (C : yconv R) (L : opk_library S R)
    (k : NonArrayKind) (vspace : opk_vspace) (odims : List Int) (single : Bool)
    (tr : List opk_call) :
    get_bound C L (.non_array k : YArg R) vspace odims single tr
      = (tr, .error (.y_error "invalid bound")) := by
  simp [get_bound, yarg_rank, yarg_nil]

/-- `get_bound` on something of rank 0. -/
theorem get_bound_rank_zero {S R : Type} (C : yconv R) (L : opk_library S R)
    (iarg : YArg R) (vspace : opk_vspace) (odims : List Int) (single : Bool)
    (tr : List opk_call) (h0 : yarg_rank iarg = 0) :
    get_bound C L iarg vspace odims single tr =
      match ygets_d C iarg with
      | .error e => (tr, .error e)
      | .ok value =>
        (tr ++ [.new_bound false],
          .ok (if L.succeeds tr (.new_bound false) = true then some (.scalar value) else none)) := by
  unfold get_bound
  simp only [h0, if_true]
  cases ygets_d C iarg with
  | error e => rfl
  | ok value => simp [opk_new_bound]

/-- An array that is not numeric is refused by the accessors. -/
theorem get_bound_other {S R : Type} (C : yconv R) (L : opk_library S R)
    (k : OtherKind) (dims : List Int) (vspace : opk_vspace) (odims : List Int)
    (single : Bool) (tr : List opk_call) :
    ∃ fn : String, get_bound C L (.other k dims : YArg R) vspace odims single tr
      = (tr, .error (.yapi fn)) := by
  unfold get_bound
  by_cases h0 : (dims.length : Int) = 0
  · exact ⟨"ygets_d", by simp [yarg_rank, h0, ygets_d]⟩
  · have hpos : (dims.length : Int) > 0 := by omega
    cases single
    · exact ⟨"ygeta_d", by simp [yarg_rank, h0, hpos, ygeta_d]⟩
    · exact ⟨"ygeta_f", by simp [yarg_rank, h0, hpos, ygeta_f]⟩

/-- The calls `get_bound` has made when it returns, and what it returns: no
call for no bound, one `opk_new_bound` for a scalar, `opk_vcreate` and
`opk_new_bound` for a vector, which is then a matching numeric array. -/
theorem get_bound_ok_trace {S R : Type} (C : yconv R) (L : opk_library S R)
    (iarg : YArg R) (vspace : opk_vspace) (ds : List Int) (single : Bool)
    (tr tr2 : List opk_call) (xl : Option (opk_bound R))
    (h : get_bound C L iarg vspace (descriptor ds) single tr = (tr2, .ok xl)) :
    (tr2 = tr ∧ xl = none ∧ iarg = .void) ∨
    (tr2 = tr ++ [.new_bound false] ∧ yarg_rank iarg = 0 ∧
      ∃ value, ygets_d C iarg = .ok value ∧
        xl = if L.succeeds tr (.new_bound false) = true then some (.scalar value) else none) ∨
    (tr2 = tr ++ [.vcreate, .new_bound true] ∧
      xl = some (.vector (ygeta_elements C single iarg)) ∧ 0 < yarg_rank iarg ∧
      buffer_descriptor iarg = some (descriptor ds) ∧ buffer_count iarg = vspace.size) := by
  by_cases h0 : yarg_rank iarg = 0
  · rw [get_bound_rank_zero C L iarg vspace _ single tr h0] at h
    cases hv : ygets_d C iarg with
    | error e =>
      rw [hv] at h
      simp at h
    | ok value =>
      rw [hv] at h
      simp only [Prod.mk.injEq, Except.ok.injEq] at h
      exact Or.inr (Or.inl ⟨h.1.symm, h0, value, rfl, h.2.symm⟩)
  · cases iarg with
    | void =>
      rw [get_bound_void] at h
      simp only [Prod.mk.injEq, Except.ok.injEq] at h
      exact Or.inl ⟨h.1.symm, h.2.symm, rfl⟩
    | non_array k =>
      rw [get_bound_non_array] at h
      simp at h
    | other k dims =>
      obtain ⟨fn, hfn⟩ := get_bound_other C L k dims vspace (descriptor ds) single tr
      rw [hfn] at h
      simp at h
    | ints k dims vals =>
      have hr : 0 < yarg_rank (.ints k dims vals : YArg R) := by
        simp only [yarg_rank] at h0 ⊢
        omega
      rw [get_bound_array C L _ vspace ds single tr _ hr rfl] at h
      split_ifs at h with c1 c2 c3 c4
      all_goals first
        | (simp at h; done)
        | (simp only [Prod.mk.injEq, Except.ok.injEq] at h
           exact Or.inr (Or.inr ⟨h.1.symm, h.2.symm, hr, by simpa [buffer_descriptor] using c1,
             by simpa using c2⟩))
    | reals k dims vals =>
      have hr : 0 < yarg_rank (.reals k dims vals : YArg R) := by
        simp only [yarg_rank] at h0 ⊢
        omega
      rw [get_bound_array C L _ vspace ds single tr _ hr rfl] at h
      split_ifs at h with c1 c2 c3 c4
      all_goals first
        | (simp at h; done)
        | (simp only [Prod.mk.injEq, Except.ok.injEq] at h
           exact Or.inr (Or.inr ⟨h.1.symm, h.2.symm, hr, by simpa [buffer_descriptor] using c1,
             by simpa using c2⟩))

/-! ### `Y_opk_vmlmb` -/

theorem create_wrapper_eq {S R : Type} (C : yconv R) (L : opk_library S R)
    (vspace : opk_vspace) (single : Bool) (t : List opk_call) :
    create_wrapper C L vspace single t
      = (t ++ [.wrap_vector],
          if L.succeeds t .wrap_vector = true then
            some [if single = true then C.l2f 0 else C.l2d 0]
          else none) := by
  unfold create_wrapper opk_wrap_simple_vector
  cases single <;> simp

/-- Once the arguments are accepted and the vector space and the two working
vectors are created, `Y_opk_vmlmb` is left with the bounds and the
optimizer. -/
theorem Y_opk_vmlmb_reaches_bounds {S R : Type} (C : yconv R) (L : opk_library S R)
    (args : List (Item R)) (tr : List opk_call) (s : vmlmb_locals R)
    (hargs : Y_opk_vmlmb_args C args (vmlmb_init R) = .ok s)
    (hn : s.n ≠ -1) (hpos : 1 ≤ s.n)
    (h1 : L.succeeds tr (.new_vector_space s.single s.n) = true)
    (h2 : L.succeeds (tr ++ [.new_vector_space s.single s.n]) .wrap_vector = true)
    (h3 : L.succeeds (tr ++ [.new_vector_space s.single s.n, .wrap_vector]) .wrap_vector
      = true) :
    Y_opk_vmlmb C L args tr =
      match optional_bound C L s.lower { size := s.n, single := s.single }
          (copy_dims s.dims) s.single
          (tr ++ [.new_vector_space s.single s.n, .wrap_vector, .wrap_vector]) with
      | (tr2, .error e) => (tr2, .error e)
      | (tr2, .ok xl) =>
        match optional_bound C L s.upper { size := s.n, single := s.single }
            (copy_dims s.dims) s.single tr2 with
        | (tr3, .error e) => (tr3, .error e)
        | (tr3, .ok xu) =>
          if L.succeeds tr3 (.new_vmlmb_optimizer s.mem s.flags) then
            (tr3 ++ [.new_vmlmb_optimizer s.mem s.flags], .ok
              { dims := copy_dims s.dims, ops := .vmlmb,
                optimizer := L.new_vmlmb_optimizer { size := s.n, single := s.single }
                  s.mem s.flags xl xu,
                vspace := { size := s.n, single := s.single },
                x := [if s.single = true then C.l2f 0 else C.l2d 0],
                gx := [if s.single = true then C.l2f 0 else C.l2d 0],
                xl := xl, xu := xu, single := s.single })
          else (tr3 ++ [.new_vmlmb_optimizer s.mem s.flags], .error (.y_error L.errno_reason)) := by
  unfold Y_opk_vmlmb
  have hlt : ¬ s.n < 1 := by omega
  simp only [hargs, hn, if_false, opk_new_simple_vector_space, hlt, h1, if_true,
    create_wrapper_eq, h2, List.append_assoc, List.singleton_append]
  simp only [h3, if_true]
  rfl

/-- Effect of a positional argument on the locals of `Y_opk_vmlmb`. -/
theorem Y_opk_vmlmb_arg_pos {R : Type} (C : yconv R) (v : YArg R)
    (s s1 : vmlmb_locals R) (h : Y_opk_vmlmb_arg C (.pos v) s = .ok s1) :
    s.n = -1 ∧ get_dims v = .ok (s1.dims, s1.n) ∧ s1.mem = s.mem ∧
      s1.lower = s.lower ∧ s1.upper = s.upper ∧ s1.single = s.single ∧
      s1.flags = s.flags := by
  unfold Y_opk_vmlmb_arg at h
  by_cases hn : s.n ≠ -1
  · simp [hn] at h
  · simp only [hn, if_false] at h
    cases hg : get_dims v with
    | error e =>
      rw [hg] at h
      simp at h
    | ok r =>
      rw [hg] at h
      simp only [Except.ok.injEq] at h
      subst h
      exact ⟨by simpa using hn, rfl, rfl, rfl, rfl, rfl, rfl⟩

/-- Effect of a keyword argument on the locals of `Y_opk_vmlmb`. -/
theorem Y_opk_vmlmb_arg_key {R : Type} (C : yconv R) (index : String) (v : YArg R)
    (s s1 : vmlmb_locals R) (h : Y_opk_vmlmb_arg C (.key index v) s = .ok s1) :
    s1.n = s.n ∧ s1.dims = s.dims ∧
      (index ≠ mem_index → s1.mem = s.mem) ∧
      (index = mem_index → get_optional_long v s.mem = .ok s1.mem ∧ 0 < s1.mem) := by
  unfold Y_opk_vmlmb_arg at h
  by_cases hm : index = mem_index
  · simp only [hm, if_true] at h
    cases hg : get_optional_long v s.mem with
    | error e =>
      rw [hg] at h
      simp at h
    | ok mem =>
      rw [hg] at h
      by_cases hle : mem ≤ 0
      · simp [hle] at h
      · simp only [hle, if_false, Except.ok.injEq] at h
        subst h
        exact ⟨rfl, rfl, fun hne => absurd hm hne, fun _ => ⟨rfl, by simpa using hle⟩⟩
  · simp only [hm, if_false] at h
    split_ifs at h with c1 c2 c3 c4
    · cases hg : get_optional_uint v s.flags with
      | error e =>
        rw [hg] at h
        simp at h
      | ok flags =>
        rw [hg] at h
        simp only [Except.ok.injEq] at h
        subst h
        exact ⟨rfl, rfl, fun _ => rfl, fun he => absurd he hm⟩
    · simp only [Except.ok.injEq] at h
      subst h
      exact ⟨rfl, rfl, fun _ => rfl, fun he => absurd he hm⟩
    · simp only [Except.ok.injEq] at h
      subst h
      exact ⟨rfl, rfl, fun _ => rfl, fun he => absurd he hm⟩
    · simp only [Except.ok.injEq] at h
      subst h
      exact ⟨rfl, rfl, fun _ => rfl, fun he => absurd he hm⟩

/-- After the argument loop the dimension list is well formed, unless no
count has been recorded. -/
theorem Y_opk_vmlmb_args_dims {R : Type} (C : yconv R) (args : List (Item R)) :
    ∀ s s1 : vmlmb_locals R, (∀ v, Item.pos v ∈ args → v.wf) →
      Y_opk_vmlmb_args C args s = .ok s1 →
      (s.n ≠ -1 → ∃ ds, s.dims = descriptor ds) →
      (s1.n ≠ -1 → ∃ ds, s1.dims = descriptor ds) := by
  induction args with
  | nil =>
    intro s s1 _ h hinv
    simp only [Y_opk_vmlmb_args, Except.ok.injEq] at h
    subst h
    exact hinv
  | cons it rest ih =>
    intro s s1 hwf h hinv
    unfold Y_opk_vmlmb_args at h
    cases hb : Y_opk_vmlmb_arg C it s with
    | error e =>
      rw [hb] at h
      simp at h
    | ok s2 =>
      rw [hb] at h
      simp only at h
      refine ih s2 s1 (fun v hv => hwf v (List.mem_cons_of_mem _ hv)) h ?_
      intro hn2
      cases it with
      | pos v =>
        obtain ⟨_, hg, _⟩ := Y_opk_vmlmb_arg_pos C v s s2 hb
        exact ⟨_, (get_dims_descriptor v (hwf v (List.mem_cons_self _ _)) _ _ hg).1⟩
      | key index v =>
        obtain ⟨e1, e2, _⟩ := Y_opk_vmlmb_arg_key C index v s s2 hb
        rw [e2]
        exact hinv (by rw [← e1]; exact hn2)

/-- A mismatching array makes `get_bound` end in one of its two dimension
errors without any call to the library. -/
theorem get_bound_mismatch {S R : Type} (C : yconv R) (L : opk_library S R)
    (iarg : YArg R) (vspace : opk_vspace) (ds : List Int) (single : Bool)
    (tr : List opk_call) (h : bound_mismatch iarg (descriptor ds) vspace.size) :
    ∃ e : Err, is_bound_error e ∧
      get_bound C L iarg vspace (descriptor ds) single tr = (tr, .error e) := by
  obtain ⟨hr, B, hB, hmis⟩ := h
  rw [get_bound_array C L iarg vspace ds single tr B hr hB]
  by_cases hBd : B ≠ descriptor ds
  · rw [if_pos hBd]
    exact ⟨_, Or.inl rfl, rfl⟩
  · rw [if_neg hBd]
    have hc : buffer_count iarg ≠ vspace.size := by
      rcases hmis with h | h
      · exact absurd h hBd
      · exact h
    rw [if_pos hc]
    exact ⟨_, Or.inr rfl, rfl⟩

/-- C4, counterexample: a two-element instance given a matching array as
lower bound and a three-element array as upper bound.  Construction fails
with "bad bound dimensions", but only after `opk_vcreate` and `opk_new_bound`
have been called for the lower bound. -/
theorem upper_mismatch_after_lower_vector_counterexample :
    Y_opk_vmlmb demo_conv demo_library
      [.pos (.ints .long [] [2]), .key "lower" (.reals .double [2] [0, 0]),
        .key "upper" (.reals .double [3] [9, 9, 9])] []
      = ([.new_vector_space false 2, .wrap_vector, .wrap_vector, .vcreate, .new_bound true],
          .error (.y_error "bad bound dimensions")) := by
  rfl

/-- C4, amended: in a variable-metric construction whose arguments are
accepted and whose vector space and working vectors are created, a bound that
is a numeric array with another dimension list or another number of elements
than the instance makes construction fail with "bad bound dimensions" or "bad
number of elements for the bound", before the optimizer is created and before
any library call is made for that bound.  For the lower bound this is before
any bound is built; for the upper bound the lower bound has been built first,
with its vector allocated when it is an array. -/
theorem vmlmb_bound_mismatch {S R : Type} (C : yconv R) (L : opk_library S R)
    (args : List (Item R)) (tr : List opk_call) (s : vmlmb_locals R)
    (hwf : ∀ v, Item.pos v ∈ args → v.wf)
    (hargs : Y_opk_vmlmb_args C args (vmlmb_init R) = .ok s)
    (hn : s.n ≠ -1) (hpos : 1 ≤ s.n)
    (h1 : L.succeeds tr (.new_vector_space s.single s.n) = true)
    (h2 : L.succeeds (tr ++ [.new_vector_space s.single s.n]) .wrap_vector = true)
    (h3 : L.succeeds (tr ++ [.new_vector_space s.single s.n, .wrap_vector]) .wrap_vector
      = true) :
    (∀ lo, s.lower = some lo → bound_mismatch lo s.dims s.n →
      ∃ e : Err, is_bound_error e ∧
        Y_opk_vmlmb C L args tr
          = (tr ++ [.new_vector_space s.single s.n, .wrap_vector, .wrap_vector], .error e)) ∧
    (∀ up tr2 xl, s.upper = some up → bound_mismatch up s.dims s.n →
      optional_bound C L s.lower { size := s.n, single := s.single } s.dims s.single
          (tr ++ [.new_vector_space s.single s.n, .wrap_vector, .wrap_vector])
        = (tr2, .ok xl) →
      (∃ e : Err, is_bound_error e ∧ Y_opk_vmlmb C L args tr = (tr2, .error e)) ∧
      ((tr2 = tr ++ [.new_vector_space s.single s.n, .wrap_vector, .wrap_vector] ∧
          xl = none) ∨
        (tr2 = tr ++ [.new_vector_space s.single s.n, .wrap_vector, .wrap_vector]
              ++ [.new_bound false] ∧ ∀ data, xl ≠ some (.vector data)) ∨
        (tr2 = tr ++ [.new_vector_space s.single s.n, .wrap_vector, .wrap_vector]
              ++ [.vcreate, .new_bound true] ∧ ∃ data, xl = some (.vector data)))) := by
  obtain ⟨ds, hds⟩ :=
    Y_opk_vmlmb_args_dims C args (vmlmb_init R) s hwf hargs (fun h => absurd rfl h) hn
  have hcopy : copy_dims s.dims = s.dims := by rw [hds, copy_dims_descriptor]
  rw [Y_opk_vmlmb_reaches_bounds C L args tr s hargs hn hpos h1 h2 h3, hcopy]
  constructor
  · intro lo hlo hmis
    rw [hds] at hmis ⊢
    obtain ⟨e, he1, he2⟩ := get_bound_mismatch C L lo { size := s.n, single := s.single } ds
      s.single (tr ++ [.new_vector_space s.single s.n, .wrap_vector, .wrap_vector]) hmis
    refine ⟨e, he1, ?_⟩
    simp only [optional_bound, hlo, he2]
  · intro up tr2 xl hup hmis hlow
    rw [hlow]
    rw [hds] at hmis hlow ⊢
    obtain ⟨e, he1, he2⟩ := get_bound_mismatch C L up { size := s.n, single := s.single } ds
      s.single tr2 hmis
    refine ⟨⟨e, he1, ?_⟩, ?_⟩
    · simp only [optional_bound, hup, he2]
    · cases hlo : s.lower with
      | none =>
        rw [hlo] at hlow
        simp only [optional_bound, Prod.mk.injEq, Except.ok.injEq] at hlow
        exact Or.inl ⟨hlow.1.symm, hlow.2.symm⟩
      | some lo =>
        rw [hlo] at hlow
        simp only [optional_bound] at hlow
        rcases get_bound_ok_trace C L lo _ ds s.single _ tr2 xl hlow with
          ⟨e1, e2, _⟩ | ⟨e1, _, value, _, e2⟩ | ⟨e1, e2, _⟩
        · exact Or.inl ⟨e1, e2⟩
        · refine Or.inr (Or.inl ⟨e1, fun data hd => ?_⟩)
          rw [hd] at e2
          split_ifs at e2
          simp at e2
        · exact Or.inr (Or.inr ⟨e1, _, e2⟩)

/-- Witness of C4 (amended): a two-element instance given a three-element
array as lower bound, and the same instance given a matching lower bound and
a three-element array as upper bound. -/
theorem vmlmb_bound_mismatch_witness :
    (∃ e : Err, is_bound_error e ∧
      Y_opk_vmlmb demo_conv demo_library
          [.pos (.ints .long [] [2]), .key "lower" (.reals .double [3] [9, 9, 9])] []
        = ([] ++ [.new_vector_space false 2, .wrap_vector, .wrap_vector], .error e)) ∧
    (∃ e : Err, is_bound_error e ∧
      Y_opk_vmlmb demo_conv demo_library
          [.pos (.ints .long [] [2]), .key "lower" (.reals .double [2] [0, 0]),
            .key "upper" (.reals .double [3] [9, 9, 9])] []
        = ([.new_vector_space false 2, .wrap_vector, .wrap_vector, .vcreate,
            .new_bound true], .error e)) :=
  ⟨(vmlmb_bound_mismatch demo_conv demo_library
      [.pos (.ints .long [] [2]), .key "lower" (.reals .double [3] [9, 9, 9])] []
      { n := 2, mem := 5, dims := [1, 2], single := false,
        lower := some (.reals .double [3] [9, 9, 9]), upper := none, flags := 0 }
      (by
        intro v hv
        simp only [List.mem_cons, Item.pos.injEq, reduceCtorEq, List.mem_singleton,
          or_false, List.not_mem_nil] at hv
        subst hv
        simp [YArg.wf, count_of, Y_DIMSIZE])
      rfl (by decide) (by decide) rfl rfl rfl).1
      (.reals .double [3] [9, 9, 9]) rfl
      ⟨by decide, [1, 3], rfl, Or.inl (by decide)⟩,
    ((vmlmb_bound_mismatch demo_conv demo_library
      [.pos (.ints .long [] [2]), .key "lower" (.reals .double [2] [0, 0]),
        .key "upper" (.reals .double [3] [9, 9, 9])] []
      { n := 2, mem := 5, dims := [1, 2], single := false,
        lower := some (.reals .double [2] [0, 0]),
        upper := some (.reals .double [3] [9, 9, 9]), flags := 0 }
      (by
        intro v hv
        simp only [List.mem_cons, Item.pos.injEq, reduceCtorEq, List.mem_singleton,
          or_false, List.not_mem_nil, false_or] at hv
        subst hv
        simp [YArg.wf, count_of, Y_DIMSIZE])
      rfl (by decide) (by decide) rfl rfl rfl).2
      (.reals .double [3] [9, 9, 9])
      [.new_vector_space false 2, .wrap_vector, .wrap_vector, .vcreate, .new_bound true]
      (some (.vector [0, 0])) rfl
      ⟨by decide, [1, 3], rfl, Or.inl (by decide)⟩ rfl).1⟩

theorem ygeta_elements_reals {R : Type} (C : yconv R) (single : Bool) (k : RealKind)
    (dims : List Int) (vals : List R) :
    ygeta_elements C single (.reals k dims vals)
      = if single = true ∧ k = .double then vals.map C.d2f else vals := by
  cases single <;> cases k <;> simp [ygeta_elements, ygeta_f, ygeta_d]

theorem ygeta_elements_ints {R : Type} (C : yconv R) (single : Bool) (k : IntKind)
    (dims : List Int) (vals : List Int) :
    ygeta_elements C single (.ints k dims vals : YArg R)
      = vals.map (if single = true then C.l2f else C.l2d) := by
  cases single <;> simp [ygeta_elements, ygeta_f, ygeta_d]

/-- C5, counterexample: a two-element instance given the matching array
`[4, 5]` as bound, with a library that cannot create the vector: `get_bound`
returns no vector bound but raises the error of its check of `opk_vcreate`.
And a complex scalar, a number of rank 0, is refused by `ygets_d`: no scalar
bound, and not the error "invalid bound". -/
theorem get_bound_without_bound_counterexample :
    get_bound demo_conv demo_library_no_bound (.reals .double [2] [4, 5])
        { size := 2, single := false } (descriptor [2]) false []
      = ([.vcreate], .error (.y_error "failed to create a \"vector\" for the bound")) ∧
    get_bound demo_conv demo_library (.other .complex [] : YArg Int)
        { size := 2, single := false } (descriptor [2]) false []
      = ([], .error (.yapi "ygets_d")) :=
  ⟨rfl, rfl⟩

/-- C5, amended: what `get_bound` returns for each kind of bound
specification, when the vector space of the instance has as many elements as
its dimension list announces.  Nil gives no bound.  A real or integer scalar
gives a scalar bound holding its value (as a `double`) when the library
creates the bound.  A well formed real or integer array with the dimension
list of the instance gives the error "failed to create a "vector" for the
bound" when `opk_vcreate` fails, the error "failed to create the bound" when
`opk_new_bound` fails, and otherwise a vector bound whose storage holds the
elements of the array, one for one and in order, in the element type the
vector space has (unchanged for a real array unless a `double` array is given
in single precision).  What is neither an array nor nil ends in the error
"invalid bound"; a scalar or an array that is not real or integer (complex,
string, pointer, structure) is refused by the Yorick accessor. -/
theorem get_bound_cases {S R : Type} (C : yconv R) (L : opk_library S R)
    (vspace : opk_vspace) (ds : List Int) (single : Bool) (tr : List opk_call)
    (hsize : vspace.size = count_of ds) :
    get_bound C L (.void : YArg R) vspace (descriptor ds) single tr = (tr, .ok none) ∧
    (∀ (k : RealKind) (v : R), L.succeeds tr (.new_bound false) = true →
      get_bound C L (.reals k [] [v]) vspace (descriptor ds) single tr
        = (tr ++ [.new_bound false], .ok (some (.scalar v)))) ∧
    (∀ (k : IntKind) (v : Int), L.succeeds tr (.new_bound false) = true →
      get_bound C L (.ints k [] [v] : YArg R) vspace (descriptor ds) single tr
        = (tr ++ [.new_bound false], .ok (some (.scalar (C.l2d v))))) ∧
    (∀ (k : RealKind) (dims : List Int) (vals : List R),
      dims ≠ [] → (YArg.reals k dims vals).wf → descriptor dims = descriptor ds →
      get_bound C L (.reals k dims vals) vspace (descriptor ds) single tr
        = if L.succeeds tr .vcreate = false then
            (tr ++ [.vcreate],
              .error (.y_error "failed to create a \"vector\" for the bound"))
          else if L.succeeds (tr ++ [.vcreate]) (.new_bound true) = false then
            (tr ++ [.vcreate, .new_bound true],
              .error (.y_error "failed to create the bound"))
          else
            (tr ++ [.vcreate, .new_bound true],
              .ok (some (.vector (if single = true ∧ k = .double then vals.map C.d2f
                else vals))))) ∧
    (∀ (k : IntKind) (dims : List Int) (vals : List Int),
      dims ≠ [] → (YArg.ints k dims vals : YArg R).wf → descriptor dims = descriptor ds →
      get_bound C L (.ints k dims vals : YArg R) vspace (descriptor ds) single tr
        = if L.succeeds tr .vcreate = false then
            (tr ++ [.vcreate],
              .error (.y_error "failed to create a \"vector\" for the bound"))
          else if L.succeeds (tr ++ [.vcreate]) (.new_bound true) = false then
            (tr ++ [.vcreate, .new_bound true],
              .error (.y_error "failed to create the bound"))
          else
            (tr ++ [.vcreate, .new_bound true],
              .ok (some (.vector (vals.map (if single = true then C.l2f else C.l2d)))))) ∧
    (∀ k : NonArrayKind,
      get_bound C L (.non_array k : YArg R) vspace (descriptor ds) single tr
        = (tr, .error (.y_error "invalid bound"))) ∧
    (∀ (k : OtherKind) (dims : List Int),
      ∃ fn : String,
        get_bound C L (.other k dims : YArg R) vspace (descriptor ds) single tr
          = (tr, .error (.yapi fn))) := by
  have harr : ∀ iarg : YArg R, 0 < yarg_rank iarg →
      buffer_descriptor iarg = some (descriptor ds) → buffer_count iarg = vspace.size →
      get_bound C L iarg vspace (descriptor ds) single tr
        = if L.succeeds tr .vcreate = false then
            (tr ++ [.vcreate],
              .error (.y_error "failed to create a \"vector\" for the bound"))
          else if L.succeeds (tr ++ [.vcreate]) (.new_bound true) = false then
            (tr ++ [.vcreate, .new_bound true],
              .error (.y_error "failed to create the bound"))
          else
            (tr ++ [.vcreate, .new_bound true],
              .ok (some (.vector (ygeta_elements C single iarg)))) := by
    intro iarg hr hB hc
    rw [get_bound_array C L iarg vspace ds single tr _ hr hB,
      if_neg (not_not.mpr rfl), if_neg (not_not.mpr hc)]
  have hrank : ∀ dims : List Int, dims ≠ [] → 0 < (dims.length : Int) := by
    intro dims hd
    have := List.length_pos.mpr hd
    omega
  refine ⟨get_bound_void C L vspace _ single tr, ?_, ?_, ?_, ?_,
    fun k => get_bound_non_array C L k vspace _ single tr,
    fun k dims => get_bound_other C L k dims vspace _ single tr⟩
  · intro k v hb0
    rw [get_bound_rank_zero C L _ vspace _ single tr (by simp [yarg_rank])]
    simp [ygets_d, hb0]
  · intro k v hb0
    rw [get_bound_rank_zero C L _ vspace _ single tr (by simp [yarg_rank])]
    simp [ygets_d, hb0]
  · intro k dims vals hd hwf hdesc
    have hdims : dims = ds := (List.cons.inj hdesc).2
    rw [harr (.reals k dims vals) (hrank dims hd) (by simp [buffer_descriptor, hdesc])
      (by rw [hsize, ← hdims]; exact hwf.2.2), ygeta_elements_reals]
  · intro k dims vals hd hwf hdesc
    have hdims : dims = ds := (List.cons.inj hdesc).2
    rw [harr (.ints k dims vals) (hrank dims hd) (by simp [buffer_descriptor, hdesc])
      (by rw [hsize, ← hdims]; exact hwf.2.2), ygeta_elements_ints]

/-- Witness of C5 (amended): nil, the scalar `3`, the array `[4, 5]` and a
function given as bound of a two-element instance, and the array `[4, 5]` with
a library that cannot create the vector. -/
theorem get_bound_cases_witness :
    get_bound demo_conv demo_library (.void : YArg Int) { size := 2, single := false }
        (descriptor [2]) false [] = ([], .ok none) ∧
    get_bound demo_conv demo_library (.reals .double [] [3]) { size := 2, single := false }
        (descriptor [2]) false []
      = ([] ++ [.new_bound false], .ok (some (.scalar 3))) ∧
    get_bound demo_conv demo_library (.reals .double [2] [4, 5])
        { size := 2, single := false } (descriptor [2]) false []
      = ([] ++ [.vcreate, .new_bound true], .ok (some (.vector [4, 5]))) ∧
    get_bound demo_conv demo_library (.non_array .function : YArg Int)
        { size := 2, single := false } (descriptor [2]) false []
      = ([], .error (.y_error "invalid bound")) ∧
    get_bound demo_conv demo_library_no_bound (.reals .double [2] [4, 5])
        { size := 2, single := false } (descriptor [2]) false []
      = ([] ++ [.vcreate], .error (.y_error "failed to create a \"vector\" for the bound")) :=
  have h := get_bound_cases demo_conv demo_library { size := 2, single := false } [2] false []
    (by decide)
  have h2 := get_bound_cases demo_conv demo_library_no_bound { size := 2, single := false }
    [2] false [] (by decide)
  ⟨h.1, h.2.1 .double 3 rfl,
    h.2.2.2.1 .double [2] [4, 5] (by decide) (by simp [YArg.wf, count_of, Y_DIMSIZE]) rfl,
    h.2.2.2.2.2.1 .function,
    h2.2.2.2.1 .double [2] [4, 5] (by decide) (by simp [YArg.wf, count_of, Y_DIMSIZE]) rfl⟩

/-- The scalar path of `get_bound` does not check what `opk_new_bound`
returns, as the array path does: with a library that cannot create the bound,
the scalar `3` gives no bound and no error, and `Y_opk_vmlmb` goes on to
create the optimizer without the lower bound it was given. -/
theorem get_bound_scalar_unchecked :
    get_bound demo_conv demo_library_no_bound (.reals .double [] [3])
        { size := 2, single := false } (descriptor [2]) false []
      = ([.new_bound false], .ok none) ∧
    (∃ opt : yopt_instance demo_state Int,
      Y_opk_vmlmb demo_conv demo_library_no_bound
          [.pos (.ints .long [] [2]), .key "lower" (.reals .double [] [3])] []
        = ([.new_vector_space false 2, .wrap_vector, .wrap_vector, .new_bound false,
            .new_vmlmb_optimizer 5 0], .ok opt) ∧
      opt.xl = none) :=
  ⟨rfl, _, rfl, rfl⟩

/-! ### Attributes -/

/-- C8: the projection counter read through the operation table, and member
`projections` of an instance, is `0` for the conjugate-gradient table and the
evaluation counter, read in the same state, for the variable-metric table. -/
theorem projections_through_table {S R : Type} (L : opk_library S R)
    (opt : yopt_instance S R) :
    GET_PROJECTIONS L opt
      = (match opt.ops with
        | .nlcg => 0
        | .vmlmb => GET_EVALUATIONS L opt) ∧
    yopt_extract L opt "projections" = .ok (.long (GET_PROJECTIONS L opt)) ∧
    yopt_extract L opt "evaluations" = .ok (.long (GET_EVALUATIONS L opt)) := by
  refine ⟨?_, ?_, ?_⟩
  · unfold GET_PROJECTIONS GET_EVALUATIONS
    cases opt.ops <;>
      simp [ops_table.deref, nlcg_ops, vmlmb_ops, nlcg_get_projections,
        vmlmb_get_projections, vmlmb_get_evaluations]
  · simp [yopt_extract, yget_global, flags_index, task_index, status_index, reason_index,
      description_index, name_index, size_index, dims_index, iterations_index,
      evaluations_index, restarts_index, projections_index]
  · simp [yopt_extract, yget_global, flags_index, task_index, status_index, reason_index,
      description_index, name_index, size_index, dims_index, iterations_index,
      evaluations_index]

/-- C10, counterexample: a variable-metric instance constructed with memory
depth 7, which the library received, yields nil for member `mem`. -/
theorem mem_member_counterexample :
    ∃ opt : yopt_instance demo_state Int,
      (Y_opk_vmlmb demo_conv demo_library
        [.pos (.ints .long [] [2]), .key "mem" (.ints .long [] [7])] []).2 = .ok opt ∧
      opt.optimizer.mem = 7 ∧
      yopt_extract demo_library opt "mem" = .ok .nil :=
  ⟨_, rfl, rfl, rfl⟩

/-- C10, amended: reading member `mem` of an instance yields nil whatever the
memory depth it was constructed with; `yopt_extract` yields nil for every
member other than flags, task, status, reason, description, name, size,
dims, iterations, evaluations, restarts, projections and single. -/
theorem mem_member_is_nil {S R : Type} (L : opk_library S R) (opt : yopt_instance S R) :
    yopt_extract L opt "mem" = .ok .nil ∧
    ∀ member : String, member ∈ exposed_members ∨ yopt_extract L opt member = .ok .nil := by
  constructor
  · simp [yopt_extract, yget_global, flags_index, task_index, status_index, reason_index,
      description_index, name_index, size_index, dims_index, iterations_index,
      evaluations_index, restarts_index, projections_index, single_index]
  · intro member
    by_cases h : member ∈ exposed_members
    · exact Or.inl h
    · right
      simp only [exposed_members, List.mem_cons, List.mem_singleton, List.not_mem_nil,
        or_false, not_or] at h
      obtain ⟨h1, h2, h3, h4, h5, h6, h7, h8, h9, h10, h11, h12, h13⟩ := h
      simp [yopt_extract, yget_global, flags_index, task_index, status_index, reason_index,
        description_index, name_index, size_index, dims_index, iterations_index,
        evaluations_index, restarts_index, projections_index, single_index, h1, h2, h3, h4,
        h5, h6, h7, h8, h9, h10, h11, h12, h13]

/-! ### The `mem` keyword -/

theorem Y_opk_vmlmb_args_append {R : Type} (C : yconv R) (l1 l2 : List (Item R)) :
    ∀ s : vmlmb_locals R,
      Y_opk_vmlmb_args C (l1 ++ l2) s =
        match Y_opk_vmlmb_args C l1 s with
        | .error e => .error e
        | .ok s1 => Y_opk_vmlmb_args C l2 s1 := by
  induction l1 with
  | nil =>
    intro s
    simp [Y_opk_vmlmb_args]
  | cons it rest ih =>
    intro s
    simp only [List.cons_append, Y_opk_vmlmb_args]
    cases Y_opk_vmlmb_arg C it s with
    | error e => rfl
    | ok s2 => exact ih s2

theorem get_optional_long_scalar {R : Type} (k : IntKind) (m dflt : Int) :
    get_optional_long (.ints k [] [m] : YArg R) dflt = .ok m := by
  obtain ⟨hk1, hk2⟩ := typeid_ints_le k
  simp [get_optional_long, yarg_typeid, hk1, hk2, yarg_rank, ygets_l]

theorem get_optional_long_void {R : Type} (dflt : Int) :
    get_optional_long (.void : YArg R) dflt = .ok (wrap_int dflt) := by
  simp [get_optional_long, yarg_typeid]

/-- The memory depth after the argument loop: positive, unchanged without a
`mem` keyword, and what `get_optional_long` makes of the value of a single
`mem` keyword. -/
theorem Y_opk_vmlmb_args_mem {R : Type} (C : yconv R) (args : List (Item R)) :
    ∀ s s1 : vmlmb_locals R, Y_opk_vmlmb_args C args s = .ok s1 → 0 < s.mem →
      0 < s1.mem ∧ (mem_keys args = [] → s1.mem = s.mem) ∧
      (∀ v, mem_keys args = [v] → get_optional_long v s.mem = .ok s1.mem) := by
  induction args with
  | nil =>
    intro s s1 h hpos
    simp only [Y_opk_vmlmb_args, Except.ok.injEq] at h
    subst h
    exact ⟨hpos, fun _ => rfl, fun v hv => by simp [mem_keys] at hv⟩
  | cons it rest ih =>
    intro s s1 h hpos
    unfold Y_opk_vmlmb_args at h
    cases hb : Y_opk_vmlmb_arg C it s with
    | error e =>
      rw [hb] at h
      simp at h
    | ok s2 =>
      rw [hb] at h
      simp only at h
      cases it with
      | pos v =>
        obtain ⟨_, _, hm, _⟩ := Y_opk_vmlmb_arg_pos C v s s2 hb
        obtain ⟨i1, i2, i3⟩ := ih s2 s1 h (by rw [hm]; exact hpos)
        rw [hm] at i2 i3
        exact ⟨i1, by simpa [mem_keys] using i2, by simpa [mem_keys] using i3⟩
      | key index v =>
        obtain ⟨_, _, hne, heq⟩ := Y_opk_vmlmb_arg_key C index v s s2 hb
        by_cases hi : index = mem_index
        · obtain ⟨hg, hp2⟩ := heq hi
          obtain ⟨i1, i2, _⟩ := ih s2 s1 h hp2
          refine ⟨i1, by simp [mem_keys, hi], ?_⟩
          intro v2 hv2
          simp only [mem_keys, hi, if_true, List.cons.injEq] at hv2
          rw [← hv2.1, i2 hv2.2]
          exact hg
        · have hm := hne hi
          obtain ⟨i1, i2, i3⟩ := ih s2 s1 h (by rw [hm]; exact hpos)
          rw [hm] at i2 i3
          exact ⟨i1, by simpa [mem_keys, hi] using i2, by simpa [mem_keys, hi] using i3⟩

/-- What a successful `Y_opk_vmlmb` has done last: create the optimizer with
the memory depth and the flags of the argument loop. -/
theorem Y_opk_vmlmb_ok_inv {S R : Type} (C : yconv R) (L : opk_library S R)
    (args : List (Item R)) (tr tr2 : List opk_call) (opt : yopt_instance S R)
    (h : Y_opk_vmlmb C L args tr = (tr2, .ok opt)) :
    ∃ (s : vmlmb_locals R) (tr3 : List opk_call),
      Y_opk_vmlmb_args C args (vmlmb_init R) = .ok s ∧
      tr2 = tr3 ++ [.new_vmlmb_optimizer s.mem s.flags] ∧
      opt.optimizer = L.new_vmlmb_optimizer opt.vspace s.mem s.flags opt.xl opt.xu ∧
      opt.ops = .vmlmb ∧ opt.dims = copy_dims s.dims ∧ opt.vspace.size = s.n ∧
      1 ≤ s.n ∧ s.n ≠ -1 := by
  cases hl : Y_opk_vmlmb_args C args (vmlmb_init R) with
  | error e => simp [Y_opk_vmlmb, hl] at h
  | ok s =>
    by_cases hn : s.n = -1
    · simp [Y_opk_vmlmb, hl, hn] at h
    by_cases hpos : s.n < 1
    · simp [Y_opk_vmlmb, hl, hn, opk_new_simple_vector_space, hpos] at h
    by_cases h1 : L.succeeds tr (.new_vector_space s.single s.n) = true
    swap
    · simp [Y_opk_vmlmb, hl, hn, opk_new_simple_vector_space, hpos, h1] at h
    by_cases h2 : L.succeeds (tr ++ [.new_vector_space s.single s.n]) .wrap_vector = true
    swap
    · simp [Y_opk_vmlmb, hl, hn, opk_new_simple_vector_space, hpos, h1, create_wrapper_eq,
        h2] at h
    by_cases h3 : L.succeeds (tr ++ [.new_vector_space s.single s.n, .wrap_vector])
        .wrap_vector = true
    swap
    · simp [Y_opk_vmlmb, hl, hn, opk_new_simple_vector_space, hpos, h1, create_wrapper_eq,
        h2, h3] at h
    rw [Y_opk_vmlmb_reaches_bounds C L args tr s hl hn (by omega) h1 h2 h3] at h
    rcases hlo : optional_bound C L s.lower { size := s.n, single := s.single }
        (copy_dims s.dims) s.single
        (tr ++ [.new_vector_space s.single s.n, .wrap_vector, .wrap_vector]) with ⟨t2, r2⟩
    rw [hlo] at h
    cases r2 with
    | error e => simp at h
    | ok xl =>
      simp only at h
      rcases hup : optional_bound C L s.upper { size := s.n, single := s.single }
          (copy_dims s.dims) s.single t2 with ⟨t3, r3⟩
      rw [hup] at h
      cases r3 with
      | error e => simp at h
      | ok xu =>
        simp only at h
        by_cases h4 : L.succeeds t3 (.new_vmlmb_optimizer s.mem s.flags) = true
        · simp only [h4, if_true, Prod.mk.injEq, Except.ok.injEq] at h
          obtain ⟨e1, e2⟩ := h
          subst e2
          exact ⟨s, t3, rfl, e1.symm, rfl, rfl, rfl, rfl, by omega, hn⟩
        · simp [h4] at h

/-- C9, counterexample: the memory depth `0` is supplied, after a dimension
argument that is itself refused: construction fails, but with the error of the
dimension argument, which is examined first. -/
theorem mem_nonpositive_other_error_counterexample :
    Y_opk_vmlmb demo_conv demo_library
      [.pos (.ints .long [] [0]), .key "mem" (.ints .long [] [0])] []
      = ([], .error (.y_error "invalid dimension length")) := by
  rfl

/-- C9, amended: if an integer scalar `m ≤ 0` is supplied for the `mem`
keyword, `Y_opk_vmlmb` fails without any call to the library and without
building an instance, the error being "invalid value for MEM keyword" whenever
the arguments written before the keyword are accepted.  If `Y_opk_vmlmb` does
build one, its last call to the library creates the optimizer with a memory
depth that is positive, and that is `5` when the keyword is absent or its one
value is nil, and `m` when its one value is the integer scalar `m`. -/
theorem vmlmb_memory_depth {S R : Type} (C : yconv R) (L : opk_library S R)
    (args : List (Item R)) (tr : List opk_call) :
    (∀ (pre post : List (Item R)) (k : IntKind) (m : Int),
      args = pre ++ Item.key mem_index (.ints k [] [m]) :: post → m ≤ 0 →
      (∃ e : Err, Y_opk_vmlmb C L args tr = (tr, .error e)) ∧
      (∀ s, Y_opk_vmlmb_args C pre (vmlmb_init R) = .ok s →
        Y_opk_vmlmb C L args tr
          = (tr, .error (.y_error "invalid value for MEM keyword")))) ∧
    (∀ (tr2 : List opk_call) (opt : yopt_instance S R),
      Y_opk_vmlmb C L args tr = (tr2, .ok opt) →
      ∃ (mem flags : Int) (tr3 : List opk_call),
        tr2 = tr3 ++ [.new_vmlmb_optimizer mem flags] ∧
        opt.optimizer = L.new_vmlmb_optimizer opt.vspace mem flags opt.xl opt.xu ∧
        0 < mem ∧
        (mem_keys args = [] → mem = 5) ∧
        (mem_keys args = [.void] → mem = 5) ∧
        (∀ (k : IntKind) (m : Int), mem_keys args = [.ints k [] [m]] → mem = m)) := by
  constructor
  · intro pre post k m hargs hm
    have hbody : ∀ s : vmlmb_locals R,
        Y_opk_vmlmb_args C (Item.key mem_index (.ints k [] [m]) :: post) s
          = .error (.y_error "invalid value for MEM keyword") := by
      intro s
      simp [Y_opk_vmlmb_args, Y_opk_vmlmb_arg, get_optional_long_scalar, hm]
    have hloop : Y_opk_vmlmb_args C args (vmlmb_init R) =
        match Y_opk_vmlmb_args C pre (vmlmb_init R) with
        | .error e => .error e
        | .ok _ => .error (.y_error "invalid value for MEM keyword") := by
      rw [hargs, Y_opk_vmlmb_args_append]
      cases Y_opk_vmlmb_args C pre (vmlmb_init R) with
      | error e => rfl
      | ok s1 => exact hbody s1
    constructor
    · cases hp : Y_opk_vmlmb_args C pre (vmlmb_init R) with
      | error e =>
        rw [hp] at hloop
        exact ⟨e, by simp [Y_opk_vmlmb, hloop]⟩
      | ok s1 =>
        rw [hp] at hloop
        exact ⟨.y_error "invalid value for MEM keyword", by simp [Y_opk_vmlmb, hloop]⟩
    · intro s hs
      rw [hs] at hloop
      simp [Y_opk_vmlmb, hloop]
  · intro tr2 opt h
    obtain ⟨s, tr3, hl, e1, e2, _⟩ := Y_opk_vmlmb_ok_inv C L args tr tr2 opt h
    obtain ⟨i1, i2, i3⟩ :=
      Y_opk_vmlmb_args_mem C args (vmlmb_init R) s hl (by simp [vmlmb_init])
    refine ⟨s.mem, s.flags, tr3, e1, e2, i1, ?_, ?_, ?_⟩
    · intro hk
      rw [i2 hk]
      rfl
    · intro hk
      have := i3 _ hk
      rw [get_optional_long_void] at this
      simp only [Except.ok.injEq] at this
      rw [← this]
      show wrap_int 5 = 5
      decide
    · intro k m hk
      have := i3 _ hk
      rw [get_optional_long_scalar] at this
      simp only [Except.ok.injEq] at this
      exact this.symm

/-- Witness of C9 (amended): the memory depth `0` supplied as first argument,
and the memory depth `7` supplied after the dimension. -/
theorem vmlmb_memory_depth_witness :
    Y_opk_vmlmb demo_conv demo_library
        ([] ++ Item.key mem_index (.ints .long [] [0]) :: [.pos (.ints .long [] [2])]) []
      = ([], .error (.y_error "invalid value for MEM keyword")) ∧
    (∃ (flags : Int) (tr3 : List opk_call),
      [opk_call.new_vector_space false 2, .wrap_vector, .wrap_vector,
          .new_vmlmb_optimizer 7 0]
        = tr3 ++ [.new_vmlmb_optimizer 7 flags]) :=
  ⟨((vmlmb_memory_depth demo_conv demo_library
      ([] ++ Item.key mem_index (.ints .long [] [0]) :: [.pos (.ints .long [] [2])]) []).1
      [] [.pos (.ints .long [] [2])] .long 0 rfl (by decide)).2 (vmlmb_init Int) rfl,
    by
      obtain ⟨mem, flags, tr3, e1, _, _, _, _, h7⟩ :=
        (vmlmb_memory_depth demo_conv demo_library
          [.pos (.ints .long [] [2]), .key "mem" (.ints .long [] [7])] []).2
          [.new_vector_space false 2, .wrap_vector, .wrap_vector, .new_vmlmb_optimizer 7 0]
          { dims := [1, 2], ops := .vmlmb,
            optimizer := { task := .error, evaluations := 0, mem := 7 },
            vspace := { size := 2, single := false }, x := [0], gx := [0], xl := none,
            xu := none, single := false } rfl
      have hm : mem = 7 := h7 .long 7 rfl
      subst hm
      exact ⟨flags, tr3, e1⟩⟩

/-! ### The element count of a bound -/

theorem ygets_d_error {R : Type} (C : yconv R) (iarg : YArg R) (e : Err)
    (h : ygets_d C iarg = .error e) : e = .yapi "ygets_d" := by
  unfold ygets_d at h
  split at h
  · cases h
  · cases h
  · simp only [Except.error.injEq] at h
    exact h.symm

/-- C12: for an instance whose vector space has as many elements as the
lengths of its dimension list multiply to, and a bound whose number of
elements is the product of its own axis lengths, `get_bound` never ends in the
error "bad number of elements for the bound": when the bound is a numeric
array that passes `same_dims`, its number of elements is the size of the
vector space, and every numeric array that does not match is rejected with
"bad bound dimensions". -/
theorem bad_number_unreachable {S R : Type} (C : yconv R) (L : opk_library S R)
    (iarg : YArg R) (vspace : opk_vspace) (ds : List Int) (single : Bool)
    (tr : List opk_call) (hsize : vspace.size = count_of ds) (hwf : iarg.wf) :
    (get_bound C L iarg vspace (descriptor ds) single tr).2
      ≠ .error (.y_error "bad number of elements for the bound") ∧
    (∀ B : List Int, buffer_descriptor iarg = some B →
      same_dims (descriptor ds) B = true → buffer_count iarg = vspace.size) ∧
    (bound_mismatch iarg (descriptor ds) vspace.size →
      get_bound C L iarg vspace (descriptor ds) single tr
        = (tr, .error (.y_error "bad bound dimensions"))) := by
  have hcount : ∀ B : List Int, buffer_descriptor iarg = some B → B = descriptor ds →
      buffer_count iarg = vspace.size := by
    intro B hB hBd
    cases iarg with
    | void => simp [buffer_descriptor] at hB
    | other k dims => simp [buffer_descriptor] at hB
    | non_array k => simp [buffer_descriptor] at hB
    | ints k dims vals =>
      simp only [buffer_descriptor, Option.some.injEq] at hB
      have hdims : dims = ds := (List.cons.inj (hB.trans hBd)).2
      rw [hsize, ← hdims]
      exact hwf.2.2
    | reals k dims vals =>
      simp only [buffer_descriptor, Option.some.injEq] at hB
      have hdims : dims = ds := (List.cons.inj (hB.trans hBd)).2
      rw [hsize, ← hdims]
      exact hwf.2.2
  have hsame : ∀ B : List Int, buffer_descriptor iarg = some B →
      same_dims (descriptor ds) B = true → B = descriptor ds := by
    intro B hB hs
    cases iarg with
    | void => simp [buffer_descriptor] at hB
    | other k dims => simp [buffer_descriptor] at hB
    | non_array k => simp [buffer_descriptor] at hB
    | ints k dims vals =>
      simp only [buffer_descriptor, Option.some.injEq] at hB
      subst hB
      exact (same_dims_descriptor ds dims).1 hs
    | reals k dims vals =>
      simp only [buffer_descriptor, Option.some.injEq] at hB
      subst hB
      exact (same_dims_descriptor ds dims).1 hs
  have harray : ∀ B : List Int, 0 < yarg_rank iarg → buffer_descriptor iarg = some B →
      (get_bound C L iarg vspace (descriptor ds) single tr).2
        ≠ .error (.y_error "bad number of elements for the bound") := by
    intro B hr hB
    rw [get_bound_array C L iarg vspace ds single tr B hr hB]
    by_cases hBd : B ≠ descriptor ds
    · rw [if_pos hBd]
      simp
    · rw [if_neg hBd, if_neg (not_not.mpr (hcount B hB (not_not.mp hBd)))]
      split_ifs <;> simp
  refine ⟨?_, fun B hB hs => hcount B hB (hsame B hB hs), ?_⟩
  · by_cases h0 : yarg_rank iarg = 0
    · rw [get_bound_rank_zero C L iarg vspace _ single tr h0]
      cases hv : ygets_d C iarg with
      | error e =>
        rw [ygets_d_error C iarg e hv]
        simp
      | ok value => simp
    · cases iarg with
      | void =>
        rw [get_bound_void]
        simp
      | non_array k =>
        rw [get_bound_non_array]
        simp
      | other k dims =>
        obtain ⟨fn, hfn⟩ := get_bound_other C L k dims vspace (descriptor ds) single tr
        rw [hfn]
        simp
      | ints k dims vals =>
        exact harray _ (by simp only [yarg_rank] at h0 ⊢; omega) rfl
      | reals k dims vals =>
        exact harray _ (by simp only [yarg_rank] at h0 ⊢; omega) rfl
  · rintro ⟨hr, B, hB, hmis⟩
    rw [get_bound_array C L iarg vspace ds single tr B hr hB]
    have hBd : B ≠ descriptor ds := by
      rcases hmis with h | h
      · exact h
      · intro he
        exact h (hcount B hB he)
    rw [if_pos hBd]

/-- Witness of C12: a 2x3 instance of six elements given a 3x2 array of six
elements as bound. -/
theorem bad_number_unreachable_witness :
    (get_bound demo_conv demo_library (.reals .double [3, 2] [1, 2, 3, 4, 5, 6])
        { size := 6, single := false } (descriptor [2, 3]) false []).2
      ≠ .error (.y_error "bad number of elements for the bound") ∧
    get_bound demo_conv demo_library (.reals .double [3, 2] [1, 2, 3, 4, 5, 6])
        { size := 6, single := false } (descriptor [2, 3]) false []
      = ([], .error (.y_error "bad bound dimensions")) :=
  have h := bad_number_unreachable demo_conv demo_library
    (.reals .double [3, 2] [1, 2, 3, 4, 5, 6]) { size := 6, single := false } [2, 3] false []
    (by decide) (by simp [YArg.wf, count_of, Y_DIMSIZE])
  ⟨h.1, h.2.2 ⟨by decide, [2, 3, 2], rfl, Or.inl (by decide)⟩⟩

/-! ### The dimension list of a constructed instance -/

/-- Effect of one argument on the count and the dimension list of
`Y_opk_nlcg`. -/
theorem Y_opk_nlcg_arg_dims {R : Type} (C : yconv R) (it : Item R)
    (s s1 : nlcg_locals) (h : Y_opk_nlcg_arg C it s = .ok s1) :
    (∀ v, it = .pos v → get_dims v = .ok (s1.dims, s1.n)) ∧
    (∀ index v, it = .key index v → s1.n = s.n ∧ s1.dims = s.dims) := by
  cases it with
  | pos v =>
    refine ⟨fun v2 hv2 => ?_, fun index v2 hv2 => by cases hv2⟩
    cases hv2
    unfold Y_opk_nlcg_arg at h
    by_cases hn : s.n ≠ -1
    · simp [hn] at h
    · simp only [hn, if_false] at h
      cases hg : get_dims v with
      | error e =>
        rw [hg] at h
        simp at h
      | ok r =>
        rw [hg] at h
        simp only [Except.ok.injEq] at h
        subst h
        rfl
  | key index v =>
    refine ⟨fun v2 hv2 => (by cases hv2), fun index2 v2 _ => ?_⟩
    simp only [Y_opk_nlcg_arg] at h
    split_ifs at h with c1
    · simp only [Except.ok.injEq] at h
      subst h
      exact ⟨rfl, rfl⟩
    · cases hg : get_optional_uint v s.flags with
      | error e =>
        rw [hg] at h
        simp at h
      | ok flags =>
        rw [hg] at h
        simp only [Except.ok.injEq] at h
        subst h
        exact ⟨rfl, rfl⟩

/-- After the argument loop of `Y_opk_nlcg`, the count and the dimension
list are those `get_dims` gives for the one positional argument. -/
theorem Y_opk_nlcg_args_pos {R : Type} (C : yconv R) (args : List (Item R)) :
    ∀ s s1 : nlcg_locals, Y_opk_nlcg_args C args s = .ok s1 →
      (pos_args args = [] → s1.n = s.n ∧ s1.dims = s.dims) ∧
      (∀ v, pos_args args = [v] → get_dims v = .ok (s1.dims, s1.n)) := by
  induction args with
  | nil =>
    intro s s1 h
    simp only [Y_opk_nlcg_args, Except.ok.injEq] at h
    subst h
    exact ⟨fun _ => ⟨rfl, rfl⟩, fun v hv => by simp [pos_args] at hv⟩
  | cons it rest ih =>
    intro s s1 h
    unfold Y_opk_nlcg_args at h
    cases hb : Y_opk_nlcg_arg C it s with
    | error e =>
      rw [hb] at h
      simp at h
    | ok s2 =>
      rw [hb] at h
      simp only at h
      obtain ⟨b1, b2⟩ := Y_opk_nlcg_arg_dims C it s s2 hb
      obtain ⟨i1, i2⟩ := ih s2 s1 h
      cases it with
      | pos v =>
        refine ⟨fun hp => by simp [pos_args] at hp, fun v2 hv2 => ?_⟩
        simp only [pos_args, List.cons.injEq] at hv2
        obtain ⟨e1, e2⟩ := i1 hv2.2
        rw [← hv2.1, e1, e2]
        exact b1 v rfl
      | key index v =>
        obtain ⟨e1, e2⟩ := b2 index v rfl
        refine ⟨fun hp => ?_, fun v2 hv2 => i2 v2 (by simpa [pos_args] using hv2)⟩
        obtain ⟨j1, j2⟩ := i1 (by simpa [pos_args] using hp)
        exact ⟨j1.trans e1, j2.trans e2⟩

/-- After the argument loop of `Y_opk_vmlmb`, the count and the dimension
list are those `get_dims` gives for the one positional argument. -/
theorem Y_opk_vmlmb_args_pos {R : Type} (C : yconv R) (args : List (Item R)) :
    ∀ s s1 : vmlmb_locals R, Y_opk_vmlmb_args C args s = .ok s1 →
      (pos_args args = [] → s1.n = s.n ∧ s1.dims = s.dims) ∧
      (∀ v, pos_args args = [v] → get_dims v = .ok (s1.dims, s1.n)) := by
  induction args with
  | nil =>
    intro s s1 h
    simp only [Y_opk_vmlmb_args, Except.ok.injEq] at h
    subst h
    exact ⟨fun _ => ⟨rfl, rfl⟩, fun v hv => by simp [pos_args] at hv⟩
  | cons it rest ih =>
    intro s s1 h
    unfold Y_opk_vmlmb_args at h
    cases hb : Y_opk_vmlmb_arg C it s with
    | error e =>
      rw [hb] at h
      simp at h
    | ok s2 =>
      rw [hb] at h
      simp only at h
      obtain ⟨i1, i2⟩ := ih s2 s1 h
      cases it with
      | pos v =>
        obtain ⟨_, b1, _⟩ := Y_opk_vmlmb_arg_pos C v s s2 hb
        refine ⟨fun hp => by simp [pos_args] at hp, fun v2 hv2 => ?_⟩
        simp only [pos_args, List.cons.injEq] at hv2
        obtain ⟨e1, e2⟩ := i1 hv2.2
        rw [← hv2.1, e1, e2]
        exact b1
      | key index v =>
        obtain ⟨e1, e2, _⟩ := Y_opk_vmlmb_arg_key C index v s s2 hb
        refine ⟨fun hp => ?_, fun v2 hv2 => i2 v2 (by simpa [pos_args] using hv2)⟩
        obtain ⟨j1, j2⟩ := i1 (by simpa [pos_args] using hp)
        exact ⟨j1.trans e1, j2.trans e2⟩

/-- What a successful `Y_opk_nlcg` has built: the dimension list copied from
the argument loop, and a vector space of the count of the argument loop. -/
theorem Y_opk_nlcg_ok_inv {S R : Type} (C : yconv R) (L : opk_library S R)
    (args : List (Item R)) (tr tr2 : List opk_call) (opt : yopt_instance S R)
    (h : Y_opk_nlcg C L args tr = (tr2, .ok opt)) :
    ∃ s : nlcg_locals,
      Y_opk_nlcg_args C args
        { n := -1, dims := [], single := false, flags := L.OPK_NLCG_DEFAULT } = .ok s ∧
      opt.dims = copy_dims s.dims ∧ opt.vspace.size = s.n ∧ opt.ops = .nlcg ∧
      opt.single = s.single ∧ opt.vspace.single = s.single := by
  cases hl : Y_opk_nlcg_args C args
      { n := -1, dims := [], single := false, flags := L.OPK_NLCG_DEFAULT } with
  | error e => simp [Y_opk_nlcg, hl] at h
  | ok s =>
    by_cases hn : s.n = -1
    · simp [Y_opk_nlcg, hl, hn] at h
    by_cases hpos : s.n < 1
    · simp [Y_opk_nlcg, hl, hn, opk_new_simple_vector_space, hpos] at h
    by_cases h1 : L.succeeds tr (.new_vector_space s.single s.n) = true
    swap
    · simp [Y_opk_nlcg, hl, hn, opk_new_simple_vector_space, hpos, h1] at h
    by_cases h2 : L.succeeds (tr ++ [.new_vector_space s.single s.n]) .wrap_vector = true
    swap
    · simp [Y_opk_nlcg, hl, hn, opk_new_simple_vector_space, hpos, h1, create_wrapper_eq,
        h2] at h
    by_cases h3 : L.succeeds (tr ++ [.new_vector_space s.single s.n, .wrap_vector])
        .wrap_vector = true
    swap
    · simp [Y_opk_nlcg, hl, hn, opk_new_simple_vector_space, hpos, h1, create_wrapper_eq,
        h2, h3] at h
    by_cases h4 : L.succeeds
        (tr ++ [.new_vector_space s.single s.n, .wrap_vector, .wrap_vector])
        (.new_nlcg_optimizer s.flags) = true
    swap
    · simp [Y_opk_nlcg, hl, hn, opk_new_simple_vector_space, hpos, h1, create_wrapper_eq,
        h2, h3, h4] at h
    simp only [Y_opk_nlcg, hl, hn, opk_new_simple_vector_space, hpos, h1, create_wrapper_eq,
      h2, h3, h4, if_false, if_true, List.append_assoc, List.singleton_append,
      List.cons_append, List.nil_append, Prod.mk.injEq, Except.ok.injEq] at h
    obtain ⟨_, e2⟩ := h
    subst e2
    exact ⟨s, rfl, rfl, rfl, rfl, rfl, rfl⟩

/-- Member `dims` pushes a vector of `dims[0] + 1` longs, filled by
`copy_dims`. -/
theorem yopt_extract_dims {S R : Type} (L : opk_library S R) (opt : yopt_instance S R) :
    yopt_extract L opt "dims"
      = .ok (.l [1, opt.dims.getD 0 0 + 1] (copy_dims opt.dims)) := by
  simp [yopt_extract, yget_global, flags_index, task_index, status_index, reason_index,
    description_index, name_index, size_index, dims_index]

/-- An instance built by either constructor from one positional argument
stores the dimension list `get_dims` gives for this argument, and its vector
space has the count `get_dims` returns. -/
theorem constructed_get_dims {S R : Type} (C : yconv R) (L : opk_library S R)
    (args : List (Item R)) (tr tr2 : List opk_call) (opt : yopt_instance S R)
    (v : YArg R) (hpos : pos_args args = [v]) (hwf : v.wf)
    (hc : constructed C L args tr tr2 opt) :
    get_dims v = .ok (opt.dims, opt.vspace.size) := by
  rcases hc with h | h
  · obtain ⟨s, hl, e1, e2, _⟩ := Y_opk_nlcg_ok_inv C L args tr tr2 opt h
    have hg := (Y_opk_nlcg_args_pos C args _ s hl).2 v hpos
    have hd := (get_dims_descriptor v hwf _ _ hg).1
    rw [e1, e2, hd, copy_dims_descriptor, ← hd]
    exact hg
  · obtain ⟨s, _, hl, _, _, _, e1, e2, _⟩ := Y_opk_vmlmb_ok_inv C L args tr tr2 opt h
    have hg := (Y_opk_vmlmb_args_pos C args _ s hl).2 v hpos
    have hd := (get_dims_descriptor v hwf _ _ hg).1
    rw [e1, e2, hd, copy_dims_descriptor, ← hd]
    exact hg

/-- C11: an instance built by either constructor from one accepted dimension
argument `v` stores the dimension list of `get_dims`, and member `dims` pushes
a vector of exactly rank + 1 longs equal to it: `[0]` when `v` is nil,
`[1, n]` when `v` is the scalar `n`, the list itself when `v` is a list.
Building from the scalar `n` and building from the list `[1, n]` (`n` a C
`long`) therefore give the same dimension list and the same size `n`. -/
theorem dims_round_trip {S R : Type} (C : yconv R) (L : opk_library S R)
    (args : List (Item R)) (tr tr2 : List opk_call) (opt : yopt_instance S R)
    (v : YArg R) (hpos : pos_args args = [v]) (hwf : v.wf)
    (hc : constructed C L args tr tr2 opt) :
    yopt_extract L opt "dims" = .ok (.l [1, opt.dims.getD 0 0 + 1] opt.dims) ∧
    (opt.dims.length : Int) = opt.dims.getD 0 0 + 1 ∧
    (v = .void → opt.dims = [0]) ∧
    (∀ k n, v = .ints k [] [n] → opt.dims = [1, n] ∧ opt.vspace.size = n) ∧
    (∀ k len vals, v = .ints k [len] vals → opt.dims = vals) ∧
    (∀ (args2 : List (Item R)) (tr3 tr4 : List opk_call) (opt2 : yopt_instance S R)
        (k k2 : IntKind) (n : Int),
      v = .ints k [] [n] → n < 2 ^ 63 →
      pos_args args2 = [.ints k2 [2] [1, n]] → constructed C L args2 tr3 tr4 opt2 →
      opt2.dims = opt.dims ∧ opt2.vspace.size = opt.vspace.size ∧ opt.vspace.size = n) := by
  have hg := constructed_get_dims C L args tr tr2 opt v hpos hwf hc
  have hd := (get_dims_descriptor v hwf _ _ hg).1
  have hscalar : ∀ k n, v = .ints k [] [n] → opt.dims = [1, n] ∧ opt.vspace.size = n := by
    intro k n hv
    rw [hv, get_dims_scalar] at hg
    split_ifs at hg
    simp only [Except.ok.injEq, Prod.mk.injEq] at hg
    exact ⟨hg.1.symm, hg.2.symm⟩
  refine ⟨?_, ?_, ?_, hscalar, ?_, ?_⟩
  · rw [yopt_extract_dims]
    rw [hd, copy_dims_descriptor]
  · rw [hd]
    simp [descriptor]
  · intro hv
    rw [hv] at hg
    have h0 : get_dims (.void : YArg R) = .ok ([0], 1) := by
      simp [get_dims, yarg_typeid]
    rw [h0] at hg
    simp only [Except.ok.injEq, Prod.mk.injEq] at hg
    exact hg.1.symm
  · intro k len vals hv
    rcases (get_dims_accepts_iff v hwf _ _).1 hg with
      ⟨h1, _⟩ | ⟨k2, d, h1, _⟩ | ⟨k2, v2, h1, _, _, _, h5, _⟩
    · rw [hv] at h1
      cases h1
    · rw [hv] at h1
      simp only [YArg.ints.injEq, List.cons.injEq, reduceCtorEq, and_false, false_and] at h1
    · rw [hv] at h1
      simp only [YArg.ints.injEq] at h1
      rw [h5, h1.2.2]
  · intro args2 tr3 tr4 opt2 k k2 n hv hn hpos2 hc2
    obtain ⟨e1, e2⟩ := hscalar k n hv
    have hwf2 : (YArg.ints k2 [2] [1, n] : YArg R).wf := by
      simp [YArg.wf, count_of, Y_DIMSIZE]
    have hg2 := constructed_get_dims C L args2 tr3 tr4 opt2 _ hpos2 hwf2 hc2
    have hn1 : 1 ≤ n := by
      rw [hv, get_dims_scalar] at hg
      split_ifs at hg with c
      omega
    rw [get_dims_vector] at hg2
    have c1 : ¬ (([1, n] : List Int).length : Int) > Y_DIMSIZE := by
      simp [Y_DIMSIZE]
    have c2 : (1 : Int) = (([n] : List Int).length : Int) := by simp
    have c3 : ∀ i : Nat, i < ([n] : List Int).length → 1 ≤ ([n] : List Int).getD i 0 := by
      intro i hi
      have : i = 0 := by simpa using hi
      subst this
      simpa using hn1
    rw [if_neg c1, if_pos c2, if_pos c3] at hg2
    simp only [Except.ok.injEq, Prod.mk.injEq] at hg2
    have hw : wrap_long ([n] : List Int).prod = n := by
      simp only [List.prod_cons, List.prod_nil, mul_one]
      exact wrap_long_of_range (by omega) hn
    rw [hw] at hg2
    exact ⟨by rw [← hg2.1, e1], by rw [← hg2.2, e2], e2⟩

/-- Witness of C11: the instance built from the list `[2, 2, 3]` pushes the
three longs `[2, 2, 3]` for member `dims`; the conjugate-gradient instance
built from the scalar `6` and the variable-metric instance built from the list
`[1, 6]` have the same dimension list and the same size `6`. -/
theorem dims_round_trip_witness :
    yopt_extract demo_library (demo_nlcg_instance [2, 2, 3] 6) "dims"
      = .ok (.l [1, 3] [2, 2, 3]) ∧
    ((demo_vmlmb_instance [1, 6] 6).dims = (demo_nlcg_instance [1, 6] 6).dims ∧
      (demo_vmlmb_instance [1, 6] 6).vspace.size = (demo_nlcg_instance [1, 6] 6).vspace.size ∧
      (demo_nlcg_instance [1, 6] 6).vspace.size = 6) :=
  ⟨(dims_round_trip demo_conv demo_library [.pos (.ints .long [3] [2, 2, 3])] []
      [.new_vector_space false 6, .wrap_vector, .wrap_vector, .new_nlcg_optimizer 0]
      (demo_nlcg_instance [2, 2, 3] 6) (.ints .long [3] [2, 2, 3]) rfl
      (by simp [YArg.wf, count_of, Y_DIMSIZE]) (Or.inl rfl)).1,
    (dims_round_trip demo_conv demo_library [.pos (.ints .long [] [6])] []
      [.new_vector_space false 6, .wrap_vector, .wrap_vector, .new_nlcg_optimizer 0]
      (demo_nlcg_instance [1, 6] 6) (.ints .long [] [6]) rfl
      (by simp [YArg.wf, count_of, Y_DIMSIZE]) (Or.inl rfl)).2.2.2.2.2
      [.pos (.ints .long [2] [1, 6])] []
      [.new_vector_space false 6, .wrap_vector, .wrap_vector, .new_vmlmb_optimizer 5 0]
      (demo_vmlmb_instance [1, 6] 6) .long .long 6 rfl (by decide) rfl (Or.inr rfl)⟩

/-- The constructors establish what C12 assumes of an instance: its dimension
list is well formed and, when the product of its lengths fits a `long`, its
vector space has that many elements. -/
theorem constructed_size {S R : Type} (C : yconv R) (L : opk_library S R)
    (args : List (Item R)) (tr tr2 : List opk_call) (opt : yopt_instance S R)
    (v : YArg R) (hpos : pos_args args = [v]) (hwf : v.wf)
    (hc : constructed C L args tr tr2 opt) :
    opt.dims = descriptor opt.dims.tail ∧
    (count_of opt.dims.tail < 2 ^ 63 → opt.vspace.size = count_of opt.dims.tail) := by
  have hg := constructed_get_dims C L args tr tr2 opt v hpos hwf hc
  obtain ⟨h1, _, h3⟩ := get_dims_descriptor v hwf _ _ hg
  exact ⟨h1, fun hlt => (h3 hlt).1⟩

end Opky
